import Mathlib

set_option maxRecDepth 8000

/-!
Shallow embedding of the Things 3 → Google Tasks migrator.

Source files embedded:
- src/things_reader.py      : source data model (TMArea/TMTask rows) and the
  read accessors (filters over the row tables).
- src/google_tasks_client.py: destination client.  The remote service is a
  state (`GState`) holding the task lists and tasks; each raw service call
  consumes one element of an outcome `oracle` (`[]` means every remaining
  call succeeds) and returns `Except HttpError _`; the client methods catch
  the error and convert it to a failed value, exactly as the Python
  `try/except HttpError` blocks do.
- src/things_to_google_tasks.py: the three-phase migration driver.  Driver
  state (`MigState`) carries the Google state, the area→list cache, the
  memoized default list, the `migrated_project_task_ids` set, and a ghost
  log `createdFor` recording, for every successfully created remote task,
  the source uuid it was created for (used only by the specification).
-/

/-! ## Source data model (things_reader.py) -/

structure TMArea where
  uuid : String
  title : String
  trashed : Bool
  deriving Repr, DecidableEq

/-- A row of the TMTask table: type 0 = Task, 1 = Project, 2 = Heading.
`notes`, `area`, `project`, `heading`, `status`, `dueDate` are nullable
columns, modelled with `Option`. -/
structure TMTask where
  uuid : String
  type : Nat
  title : String
  notes : Option String
  area : Option String
  project : Option String
  heading : Option String
  status : Option String
  dueDate : Option String
  trashed : Bool
  deriving Repr, DecidableEq

structure ThingsDB where
  areas : List TMArea
  tasks : List TMTask
  deriving Repr, DecidableEq

namespace ThingsReader

/-- `get_areas`: all non-trashed areas. -/
def get_areas (db : ThingsDB) : List TMArea :=
  db.areas.filter (fun a => !a.trashed)

/-- `get_projects`: all rows with type = 1 and trashed = 0. -/
def get_projects (db : ThingsDB) : List TMTask :=
  db.tasks.filter (fun t => t.type == 1 && !t.trashed)

/-- `get_tasks`: all rows with type = 0 and trashed = 0. -/
def get_tasks (db : ThingsDB) : List TMTask :=
  db.tasks.filter (fun t => t.type == 0 && !t.trashed)

/-- `get_headings_for_project`: type = 2, trashed = 0, project = the given uuid. -/
def get_headings_for_project (db : ThingsDB) (project_uuid : String) : List TMTask :=
  db.tasks.filter (fun t => t.type == 2 && !t.trashed && t.project == some project_uuid)

/-- `get_tasks_for_project`: type = 0, trashed = 0, project = the given uuid,
heading is null. -/
def get_tasks_for_project (db : ThingsDB) (project_uuid : String) : List TMTask :=
  db.tasks.filter (fun t =>
    t.type == 0 && !t.trashed && t.project == some project_uuid && t.heading == none)

/-- `get_tasks_for_heading`: type = 0, trashed = 0, heading = the given uuid. -/
def get_tasks_for_heading (db : ThingsDB) (heading_uuid : String) : List TMTask :=
  db.tasks.filter (fun t => t.type == 0 && !t.trashed && t.heading == some heading_uuid)

end ThingsReader

/-! ## Destination model (google_tasks_client.py) -/

structure GTaskList where
  id : Nat
  title : String
  deriving Repr, DecidableEq

structure GTask where
  id : Nat
  tasklist : Nat
  title : String
  notes : Option String
  due : Option String
  parent : Option Nat
  deriving Repr, DecidableEq

inductive HttpError where
  | err : Nat → HttpError
  deriving Repr, DecidableEq

/-- Remote-service state.  `oracle` decides the outcome of each raw service
call in order; an empty oracle means every remaining call succeeds. -/
structure GState where
  lists : List GTaskList
  tasks : List GTask
  nextId : Nat
  oracle : List Bool
  warnings : Nat
  deriving Repr, DecidableEq

def GState.step (g : GState) : Bool × GState :=
  match g.oracle with
  | [] => (true, g)
  | b :: rest => (b, { g with oracle := rest })

/-- Raw `service.tasklists().list().execute()`. -/
def service_tasklists_list (g : GState) : Except HttpError (List GTaskList) × GState :=
  let (ok, g1) := g.step
  (if ok then Except.ok g1.lists else Except.error (HttpError.err 500), g1)

/-- Raw `service.tasklists().insert(body).execute()`. -/
def service_tasklists_insert (title : String) (g : GState) :
    Except HttpError GTaskList × GState :=
  let (ok, g1) := g.step
  if ok then
    (Except.ok { id := g1.nextId, title := title },
     { g1 with lists := g1.lists ++ [{ id := g1.nextId, title := title }],
               nextId := g1.nextId + 1 })
  else (Except.error (HttpError.err 500), g1)

/-- Raw `service.tasklists().delete(tasklist=id).execute()`. -/
def service_tasklists_delete (id : Nat) (g : GState) : Except HttpError Unit × GState :=
  let (ok, g1) := g.step
  if ok then
    (Except.ok (),
     { g1 with lists := g1.lists.filter (fun l => l.id != id),
               tasks := g1.tasks.filter (fun t => t.tasklist != id) })
  else (Except.error (HttpError.err 500), g1)

/-- Raw `service.tasks().insert(tasklist=.., body=.., [parent=..]).execute()`. -/
def service_tasks_insert (tasklist : Nat) (title : String) (notes due : Option String)
    (parent : Option Nat) (g : GState) : Except HttpError GTask × GState :=
  let (ok, g1) := g.step
  if ok then
    (Except.ok { id := g1.nextId, tasklist := tasklist, title := title,
                 notes := notes, due := due, parent := parent },
     { g1 with tasks := g1.tasks ++ [{ id := g1.nextId, tasklist := tasklist, title := title,
                                       notes := notes, due := due, parent := parent }],
               nextId := g1.nextId + 1 })
  else (Except.error (HttpError.err 500), g1)

/-- Python string truthiness for an optional string: `None` and `""` are falsy. -/
def optStrTruthy : Option String → Bool
  | none => false
  | some s => s != ""

/-- Leap-year rule of the proleptic Gregorian calendar used by `datetime`. -/
def isLeapYear (y : Nat) : Bool :=
  (y % 4 == 0 && y % 100 != 0) || y % 400 == 0

def daysInMonth (y m : Nat) : Nat :=
  if m == 2 then (if isLeapYear y then 29 else 28)
  else if m == 4 || m == 6 || m == 9 || m == 11 then 30
  else 31

def splitDash : List Char → List (List Char)
  | [] => [[]]
  | c :: rest =>
    if c = '-' then [] :: splitDash rest
    else
      match splitDash rest with
      | [] => [[c]]
      | grp :: grps => (c :: grp) :: grps

def allDigits (cs : List Char) : Bool :=
  cs.length > 0 && cs.all Char.isDigit

def digitsToNat (cs : List Char) : Nat :=
  cs.foldl (fun acc c => acc * 10 + (c.toNat - 48)) 0

/-- Model of `datetime.datetime.strptime(s, "%Y-%m-%d")`: four digits, dash,
one or two digits (1..12), dash, one or two digits (a valid day of that
month); year 0 is rejected (`datetime.MINYEAR` is 1). -/
def strptimeYmd (s : String) : Option (Nat × Nat × Nat) :=
  match splitDash s.toList with
  | [ys, ms, ds] =>
    if allDigits ys && ys.length == 4 && allDigits ms && ms.length <= 2 &&
       allDigits ds && ds.length <= 2 then
      let y := digitsToNat ys
      let m := digitsToNat ms
      let d := digitsToNat ds
      if 1 <= y && 1 <= m && m <= 12 && 1 <= d && d <= daysInMonth y m then
        some (y, m, d)
      else none
    else none
  | _ => none

def pad2 (n : Nat) : String :=
  if n < 10 then "0" ++ toString n else toString n

def pad4 (n : Nat) : String :=
  if n < 10 then "000" ++ toString n
  else if n < 100 then "00" ++ toString n
  else if n < 1000 then "0" ++ toString n
  else toString n

/-- `dt.isoformat() + 'Z'` for a midnight datetime parsed from `YYYY-MM-DD`. -/
def isoMidnightZ (ymd : Nat × Nat × Nat) : String :=
  pad4 ymd.1 ++ "-" ++ pad2 ymd.2.1 ++ "-" ++ pad2 ymd.2.2 ++ "T00:00:00Z"

/-- The request body assembled at the top of `create_task`, plus a flag
telling whether the invalid-due-date warning was printed.  `notes` is added
only when truthy; `due` is computed only when `due_date_str` is truthy and
parses; an unparsable due date sets the warning flag and leaves `due` out. -/
def buildTaskBody (title : String) (notes : Option String) (due_date_str : Option String) :
    (String × Option String × Option String) × Bool :=
  let bodyNotes : Option String := if optStrTruthy notes then notes else none
  if optStrTruthy due_date_str then
    match strptimeYmd (due_date_str.getD "") with
    | some ymd => ((title, bodyNotes, some (isoMidnightZ ymd)), false)
    | none => ((title, bodyNotes, none), true)
  else ((title, bodyNotes, none), false)

namespace GoogleTasksClient

/-- `get_task_lists`: returns the items on success, `[]` when the `HttpError`
is caught. -/
def get_task_lists (g : GState) : List GTaskList × GState :=
  match service_tasklists_list g with
  | (Except.ok items, g1) => (items, g1)
  | (Except.error _, g1) => ([], g1)

/-- `get_task_list_by_title`: linear scan of `get_task_lists` returning the
first list whose title is exactly equal, else `None`. -/
def get_task_list_by_title (g : GState) (title : String) : Option GTaskList × GState :=
  match get_task_lists g with
  | (task_lists, g1) => (task_lists.find? (fun l => l.title == title), g1)

/-- `create_task_list`: returns the created list, or `None` when the
`HttpError` is caught. -/
def create_task_list (g : GState) (title : String) : Option GTaskList × GState :=
  match service_tasklists_insert title g with
  | (Except.ok l, g1) => (some l, g1)
  | (Except.error _, g1) => (none, g1)

/-- `delete_task_list`: the `HttpError` is caught and only logged. -/
def delete_task_list (g : GState) (task_list_id : Nat) : GState :=
  match service_tasklists_delete task_list_id g with
  | (Except.ok _, g1) => g1
  | (Except.error _, g1) => g1

/-- `clear_all_task_lists_and_tasks`: list everything, then delete each list. -/
def clear_all_task_lists_and_tasks (g : GState) : GState :=
  match get_task_lists g with
  | (task_lists, g1) => task_lists.foldl (fun acc l => delete_task_list acc l.id) g1

/-- `create_task`: builds the body (possibly emitting the invalid-date
warning), then inserts; returns the created task, or `None` when the
`HttpError` is caught. -/
def create_task (g : GState) (task_list_id : Nat) (title : String)
    (notes : Option String) (due_date_str : Option String) (parent_task_id : Option Nat) :
    Option GTask × GState :=
  let bw := buildTaskBody title notes due_date_str
  let g1 : GState := { g with warnings := g.warnings + (if bw.2 then 1 else 0) }
  match service_tasks_insert task_list_id bw.1.1 bw.1.2.1 bw.1.2.2 parent_task_id g1 with
  | (Except.ok t, g2) => (some t, g2)
  | (Except.error _, g2) => (none, g2)

end GoogleTasksClient

/-! ## Migration driver (things_to_google_tasks.py, main) -/

def DEFAULT_LIST_TITLE : String := "Things Imported Tasks"

/-- Driver state: remote state, `google_task_lists_cache` (area uuid → list,
newest binding first, as a Python dict), `default_google_list_cache`,
`migrated_project_task_ids`, and the ghost creation log. -/
structure MigState where
  g : GState
  listsCache : List (String × GTaskList)
  defaultCache : Option GTaskList
  placed : List String
  createdFor : List (String × GTask)
  deriving Repr, DecidableEq

def lookupCache (c : List (String × GTaskList)) (k : String) : Option GTaskList :=
  (c.find? (fun e => e.1 == k)).map Prod.snd

def initMigState (g : GState) : MigState :=
  { g := g, listsCache := [], defaultCache := none, placed := [], createdFor := [] }

/-- One iteration of the Phase 1 area loop: look up an existing list by the
area's title; create one only when none is found; a creation failure leaves
the cache without an entry for this area. -/
def phase1Step (s : MigState) (area : TMArea) : MigState :=
  match GoogleTasksClient.get_task_list_by_title s.g area.title with
  | (some l, g1) => { s with g := g1, listsCache := (area.uuid, l) :: s.listsCache }
  | (none, g1) =>
    match GoogleTasksClient.create_task_list g1 area.title with
    | (some l, g2) => { s with g := g2, listsCache := (area.uuid, l) :: s.listsCache }
    | (none, g2) => { s with g := g2 }

def phase1 (db : ThingsDB) (s : MigState) : MigState :=
  (ThingsReader.get_areas db).foldl phase1Step s

/-- `get_or_create_default_list`: memoized; on a cache miss, look the default
list up by title, else create it; a creation failure returns `None`. -/
def get_or_create_default_list (s : MigState) : Option GTaskList × MigState :=
  match s.defaultCache with
  | some l => (some l, s)
  | none =>
    match GoogleTasksClient.get_task_list_by_title s.g DEFAULT_LIST_TITLE with
    | (some l, g1) => (some l, { s with g := g1, defaultCache := some l })
    | (none, g1) =>
      match GoogleTasksClient.create_task_list g1 DEFAULT_LIST_TITLE with
      | (some l, g2) => (some l, { s with g := g2, defaultCache := some l })
      | (none, g2) => (none, { s with g := g2 })

/-- Target-list resolution shared by Phases 2 and 3:
`if area_uuid and area_uuid in cache` use the cache, else fall back to
`get_or_create_default_list` (whose failure means the item is skipped). -/
def resolveTarget (s : MigState) (area_uuid : Option String) : Option GTaskList × MigState :=
  match area_uuid with
  | some a =>
    if a != "" then
      match lookupCache s.listsCache a with
      | some l => (some l, s)
      | none => get_or_create_default_list s
    else get_or_create_default_list s
  | none => get_or_create_default_list s

/-- Creation of one task under a parent during Phase 2 (both the
tasks-under-a-heading loop and the direct-tasks loop): on success the source
uuid is added to `migrated_project_task_ids`. -/
def phase2TaskStep (lid pid : Nat) (s : MigState) (t : TMTask) : MigState :=
  match GoogleTasksClient.create_task s.g lid t.title t.notes t.dueDate (some pid) with
  | (some gt, g1) =>
    { s with g := g1, placed := s.placed ++ [t.uuid],
             createdFor := s.createdFor ++ [(t.uuid, gt)] }
  | (none, g1) => { s with g := g1 }

/-- One iteration of the headings loop: create the `--- title ---`
placeholder under the project's task; on failure skip the heading's tasks;
on success mark the heading placed and migrate its tasks. -/
def phase2HeadingStep (db : ThingsDB) (lid gpid : Nat) (s : MigState) (h : TMTask) : MigState :=
  match GoogleTasksClient.create_task s.g lid ("--- " ++ h.title ++ " ---")
        none none (some gpid) with
  | (some gh, g1) =>
    (ThingsReader.get_tasks_for_heading db h.uuid).foldl (phase2TaskStep lid gh.id)
      { s with g := g1, placed := s.placed ++ [h.uuid],
               createdFor := s.createdFor ++ [(h.uuid, gh)] }
  | (none, g1) => { s with g := g1 }

/-- One iteration of the Phase 2 projects loop. -/
def phase2Project (db : ThingsDB) (s : MigState) (p : TMTask) : MigState :=
  match resolveTarget s p.area with
  | (none, s1) => s1
  | (some target, s1) =>
    match GoogleTasksClient.create_task s1.g target.id p.title p.notes none none with
    | (none, g1) => { s1 with g := g1 }
    | (some gp, g1) =>
      let s2 : MigState :=
        { s1 with g := g1, placed := s1.placed ++ [p.uuid],
                  createdFor := s1.createdFor ++ [(p.uuid, gp)] }
      let s3 := (ThingsReader.get_headings_for_project db p.uuid).foldl
                  (phase2HeadingStep db target.id gp.id) s2
      (ThingsReader.get_tasks_for_project db p.uuid).foldl (phase2TaskStep target.id gp.id) s3

def phase2 (db : ThingsDB) (s : MigState) : MigState :=
  (ThingsReader.get_projects db).foldl (phase2Project db) s

/-- The Phase 3 standalone filter: keep a task only when its uuid is not in
`migrated_project_task_ids` and its `project_uuid` is falsy. -/
def standaloneFilter (placed : List String) (t : TMTask) : Bool :=
  !(placed.contains t.uuid) && !(optStrTruthy t.project)

def standalone_tasks_to_migrate (db : ThingsDB) (placed : List String) : List TMTask :=
  (ThingsReader.get_tasks db).filter (standaloneFilter placed)

/-- One iteration of the Phase 3 loop: resolve the target list and create a
top-level task; nothing is ever added to `migrated_project_task_ids` here. -/
def phase3Step (s : MigState) (t : TMTask) : MigState :=
  match resolveTarget s t.area with
  | (none, s1) => s1
  | (some target, s1) =>
    match GoogleTasksClient.create_task s1.g target.id t.title t.notes t.dueDate none with
    | (some gt, g1) => { s1 with g := g1, createdFor := s1.createdFor ++ [(t.uuid, gt)] }
    | (none, g1) => { s1 with g := g1 }

def phase3 (db : ThingsDB) (s : MigState) : MigState :=
  (standalone_tasks_to_migrate db s.placed).foldl phase3Step s

def runMigration (db : ThingsDB) (g0 : GState) : MigState :=
  phase3 db (phase2 db (phase1 db (initMigState g0)))

/-! ## Clean-slate confirmation (things_to_google_tasks.py, lines 152-167)
and source-store close (things_reader.py, close). -/

/-- `ThingsReader.close`: closes the connection if it is open; either way the
connection ends closed. -/
def thingsReaderClose (connOpen : Bool) : Bool :=
  if connOpen then false else false

structure CleanSlateOutcome where
  exitCode : Option Nat
  readerConnOpen : Bool
  g : GState
  deriving Repr, DecidableEq

/-- Python `str.lower()` (character-wise lowercasing). -/
def pyLower (s : String) : String :=
  String.mk (s.toList.map Char.toLower)

/-- The `--clean-slate` block of `main`: with the flag set, an answer whose
lowercase form is exactly `"y"` runs the destructive clear and continues;
any other answer prints a cancellation message, closes the source store and
exits with status 0.  Without the flag the block is skipped. -/
def cleanSlateStep (clean_slate : Bool) (confirm : String) (g : GState) : CleanSlateOutcome :=
  if clean_slate then
    if pyLower confirm == "y" then
      { exitCode := none, readerConnOpen := true,
        g := GoogleTasksClient.clear_all_task_lists_and_tasks g }
    else
      { exitCode := some 0, readerConnOpen := thingsReaderClose true, g := g }
  else
    { exitCode := none, readerConnOpen := true, g := g }

/-! ## Specification-side predicates -/

/-- A source task that belongs to a project directly (project set, no
heading) or via a heading (its heading is a live heading whose owning
project is a live project). -/
def belongsToProject (db : ThingsDB) (t : TMTask) : Prop :=
  t ∈ db.tasks ∧ t.type = 0 ∧ t.trashed = false ∧
  ((∃ p ∈ db.tasks, p.type = 1 ∧ p.trashed = false ∧
      t.project = some p.uuid ∧ t.heading = none) ∨
   (∃ h ∈ db.tasks, h.type = 2 ∧ h.trashed = false ∧ t.heading = some h.uuid ∧
      ∃ p ∈ db.tasks, p.type = 1 ∧ p.trashed = false ∧ h.project = some p.uuid))

/-- Number of ghost-log entries recorded for a given source uuid. -/
def countKey (l : List (String × GTask)) (u : String) : Nat :=
  (l.map Prod.fst).count u

/-- Number of task lists carrying a given title. -/
def countTitled (ls : List GTaskList) (t : String) : Nat :=
  (ls.filter (fun l => l.title == t)).length

/-- Source uuids marked placed (and logged) while migrating one heading:
the heading itself, then the tasks under it. -/
def headingKeys (db : ThingsDB) (h : TMTask) : List String :=
  h.uuid :: (ThingsReader.get_tasks_for_heading db h.uuid).map TMTask.uuid

/-- Source uuids marked placed (and logged) while migrating one project:
the project, its headings with their tasks, then its direct tasks. -/
def projectKeys (db : ThingsDB) (p : TMTask) : List String :=
  p.uuid :: ((ThingsReader.get_headings_for_project db p.uuid).flatMap (headingKeys db) ++
    (ThingsReader.get_tasks_for_project db p.uuid).map TMTask.uuid)

/-- All source uuids marked placed during a fully successful Phase 2. -/
def phase2Keys (db : ThingsDB) : List String :=
  (ThingsReader.get_projects db).flatMap (projectKeys db)

/-- Every uuid in the placed set has a successfully created destination
counterpart recorded in the ghost log. -/
def PlacedLogged (s : MigState) : Prop :=
  ∀ u ∈ s.placed, ∃ gt, (u, gt) ∈ s.createdFor

/-- One driver step extends the placed set and the ghost log purely by
appending, and every newly placed uuid has a new log entry. -/
def StepExtend (s s1 : MigState) : Prop :=
  ∃ ps cs, s1.placed = s.placed ++ ps ∧ s1.createdFor = s.createdFor ++ cs ∧
    ∀ u ∈ ps, ∃ gt, (u, gt) ∈ cs

/-! ## Basic lemmas: client behaviour under a successful / failing oracle -/

theorem GState.step_nil {g : GState} (h : g.oracle = []) : g.step = (true, g) := by
  simp [GState.step, h]

theorem GState.step_cons {g : GState} {b : Bool} {rest : List Bool}
    (h : g.oracle = b :: rest) : g.step = (b, { g with oracle := rest }) := by
  simp [GState.step, h]

theorem get_task_lists_nil {g : GState} (h : g.oracle = []) :
    GoogleTasksClient.get_task_lists g = (g.lists, g) := by
  simp [GoogleTasksClient.get_task_lists, service_tasklists_list, GState.step, h]

theorem get_task_lists_fail {g : GState} {rest : List Bool} (h : g.oracle = false :: rest) :
    GoogleTasksClient.get_task_lists g = ([], { g with oracle := rest }) := by
  simp [GoogleTasksClient.get_task_lists, service_tasklists_list, GState.step, h]

theorem get_task_list_by_title_nil {g : GState} (title : String) (h : g.oracle = []) :
    GoogleTasksClient.get_task_list_by_title g title =
      (g.lists.find? (fun l => l.title == title), g) := by
  simp [GoogleTasksClient.get_task_list_by_title, get_task_lists_nil h]

theorem create_task_list_nil {g : GState} (title : String) (h : g.oracle = []) :
    GoogleTasksClient.create_task_list g title =
      (some { id := g.nextId, title := title },
       { g with lists := g.lists ++ [{ id := g.nextId, title := title }],
                nextId := g.nextId + 1 }) := by
  simp [GoogleTasksClient.create_task_list, service_tasklists_insert, GState.step, h]

theorem create_task_list_fail {g : GState} {rest : List Bool} (title : String)
    (h : g.oracle = false :: rest) :
    GoogleTasksClient.create_task_list g title = (none, { g with oracle := rest }) := by
  simp [GoogleTasksClient.create_task_list, service_tasklists_insert, GState.step, h]

theorem buildTaskBody_title (title : String) (notes due : Option String) :
    (buildTaskBody title notes due).1.1 = title := by
  simp only [buildTaskBody]
  split <;> (try split) <;> rfl

theorem create_task_nil {g : GState} (lid : Nat) (title : String) (notes due : Option String)
    (parent : Option Nat) (h : g.oracle = []) :
    GoogleTasksClient.create_task g lid title notes due parent =
      (some { id := g.nextId, tasklist := lid, title := title,
              notes := (buildTaskBody title notes due).1.2.1,
              due := (buildTaskBody title notes due).1.2.2,
              parent := parent },
       { g with warnings := g.warnings + (if (buildTaskBody title notes due).2 then 1 else 0),
                tasks := g.tasks ++
                  [{ id := g.nextId, tasklist := lid, title := title,
                     notes := (buildTaskBody title notes due).1.2.1,
                     due := (buildTaskBody title notes due).1.2.2,
                     parent := parent }],
                nextId := g.nextId + 1 }) := by
  simp [GoogleTasksClient.create_task, service_tasks_insert, GState.step, h, buildTaskBody_title]

theorem create_task_fail {g : GState} {rest : List Bool} (lid : Nat) (title : String)
    (notes due : Option String) (parent : Option Nat) (h : g.oracle = false :: rest) :
    GoogleTasksClient.create_task g lid title notes due parent =
      (none,
       { g with oracle := rest,
                warnings := g.warnings + (if (buildTaskBody title notes due).2 then 1 else 0) }) := by
  simp [GoogleTasksClient.create_task, service_tasks_insert, GState.step, h]

theorem delete_task_list_fail {g : GState} {rest : List Bool} (lid : Nat)
    (h : g.oracle = false :: rest) :
    GoogleTasksClient.delete_task_list g lid = { g with oracle := rest } := by
  simp [GoogleTasksClient.delete_task_list, service_tasklists_delete, GState.step, h]

theorem service_tasklists_list_fail {g : GState} {rest : List Bool}
    (h : g.oracle = false :: rest) :
    service_tasklists_list g = (Except.error (HttpError.err 500), { g with oracle := rest }) := by
  simp [service_tasklists_list, GState.step, h]

/-! ## Claim C5: graceful due-date degradation -/

/-- C5: with a successful service, `create_task` given due-date text
`"2024-07-20"` creates a task whose `due` is the RFC3339 midnight-UTC
timestamp `2024-07-20T00:00:00Z`; given `"not-a-date"` the task is still
created, with no due field, one warning is emitted, and its title and notes
are the same as in the valid-date case. -/
theorem C5_graceful_due_date (g : GState) (lid : Nat) (title : String)
    (notes : Option String) (parent : Option Nat) (hor : g.oracle = []) :
    ∃ t1 g1 t2 g2,
      GoogleTasksClient.create_task g lid title notes (some "2024-07-20") parent =
        (some t1, g1) ∧
      t1.due = some "2024-07-20T00:00:00Z" ∧ t1.title = title ∧ g1.warnings = g.warnings ∧
      GoogleTasksClient.create_task g lid title notes (some "not-a-date") parent =
        (some t2, g2) ∧
      t2.due = none ∧ t2.title = title ∧ t2.notes = t1.notes ∧
      g2.warnings = g.warnings + 1 := by
  have htr1 : optStrTruthy (some "2024-07-20") = true := by decide
  have hp1 : strptimeYmd "2024-07-20" = some (2024, 7, 20) := by decide
  have hiso : isoMidnightZ (2024, 7, 20) = "2024-07-20T00:00:00Z" := by decide
  have htr2 : optStrTruthy (some "not-a-date") = true := by decide
  have hp2 : strptimeYmd "not-a-date" = none := by decide
  have h1 : buildTaskBody title notes (some "2024-07-20") =
      ((title, (if optStrTruthy notes then notes else none),
        some "2024-07-20T00:00:00Z"), false) := by
    simp [buildTaskBody, htr1, hp1, hiso]
  have h2 : buildTaskBody title notes (some "not-a-date") =
      ((title, (if optStrTruthy notes then notes else none), none), true) := by
    simp [buildTaskBody, htr2, hp2]
  refine ⟨_, _, _, _, create_task_nil lid title notes (some "2024-07-20") parent hor,
    ?_, rfl, ?_, create_task_nil lid title notes (some "not-a-date") parent hor,
    ?_, rfl, ?_, ?_⟩
  · simp [h1]
  · simp [h1]
  · simp [h2]
  · simp [h1, h2]
  · simp [h2]

/-- Closed instance of C5 at a concrete state and inputs. -/
theorem C5_graceful_due_date_witness :
    ∃ t1 g1 t2 g2,
      GoogleTasksClient.create_task ⟨[], [], 0, [], 0⟩ 7 "Buy groceries" (some "- Milk")
          (some "2024-07-20") none = (some t1, g1) ∧
      t1.due = some "2024-07-20T00:00:00Z" ∧ t1.title = "Buy groceries" ∧ g1.warnings = 0 ∧
      GoogleTasksClient.create_task ⟨[], [], 0, [], 0⟩ 7 "Buy groceries" (some "- Milk")
          (some "not-a-date") none = (some t2, g2) ∧
      t2.due = none ∧ t2.title = "Buy groceries" ∧ t2.notes = t1.notes ∧
      g2.warnings = 0 + 1 :=
  C5_graceful_due_date ⟨[], [], 0, [], 0⟩ 7 "Buy groceries" (some "- Milk") none rfl

/-! ## Claim C6: destination-client failure conversion -/

/-- C6: when the raw remote call fails, each client method catches the error
inside the method and returns a failed result value (`none` for creates, the
empty list for listing, no propagation for delete) instead of letting the
error escape. -/
theorem C6_failure_conversion (g : GState) (rest : List Bool) (title : String) (lid : Nat)
    (notes due : Option String) (parent : Option Nat)
    (hfail : g.oracle = false :: rest) :
    (service_tasklists_list g).1 = Except.error (HttpError.err 500) ∧
    GoogleTasksClient.get_task_lists g = ([], { g with oracle := rest }) ∧
    (service_tasklists_insert title g).1 = Except.error (HttpError.err 500) ∧
    GoogleTasksClient.create_task_list g title = (none, { g with oracle := rest }) ∧
    (GoogleTasksClient.create_task g lid title notes due parent).1 = none ∧
    (GoogleTasksClient.create_task g lid title notes due parent).2.tasks = g.tasks ∧
    GoogleTasksClient.delete_task_list g lid = { g with oracle := rest } := by
  refine ⟨?_, get_task_lists_fail hfail, ?_, create_task_list_fail title hfail,
    ?_, ?_, delete_task_list_fail lid hfail⟩
  · simp [service_tasklists_list, GState.step, hfail]
  · simp [service_tasklists_insert, GState.step, hfail]
  · rw [create_task_fail lid title notes due parent hfail]
  · rw [create_task_fail lid title notes due parent hfail]

/-- Closed instance of C6 at a concrete failing state. -/
theorem C6_failure_conversion_witness :
    (service_tasklists_list ⟨[], [], 0, [false], 0⟩).1 = Except.error (HttpError.err 500) ∧
    GoogleTasksClient.get_task_lists ⟨[], [], 0, [false], 0⟩ = ([], ⟨[], [], 0, [], 0⟩) ∧
    (service_tasklists_insert "Work" ⟨[], [], 0, [false], 0⟩).1 =
      Except.error (HttpError.err 500) ∧
    GoogleTasksClient.create_task_list ⟨[], [], 0, [false], 0⟩ "Work" =
      (none, ⟨[], [], 0, [], 0⟩) ∧
    (GoogleTasksClient.create_task ⟨[], [], 0, [false], 0⟩ 3 "T" none none none).1 = none ∧
    (GoogleTasksClient.create_task ⟨[], [], 0, [false], 0⟩ 3 "T" none none none).2.tasks = [] ∧
    GoogleTasksClient.delete_task_list ⟨[], [], 0, [false], 0⟩ 3 = ⟨[], [], 0, [], 0⟩ :=
  C6_failure_conversion ⟨[], [], 0, [false], 0⟩ [] "Work" 3 none none none rfl

/-! ## Claim C7: user-declined destructive reset -/

/-- C7: when the clean-slate prompt receives any answer other than the
affirmative (lowercased `"y"`), the program exits with status 0, mutates
nothing on the destination (the remote state is returned untouched), and the
source-store connection ends closed. -/
theorem C7_declined_clean_slate (g : GState) (confirm : String)
    (hna : pyLower confirm ≠ "y") :
    cleanSlateStep true confirm g =
      { exitCode := some 0, readerConnOpen := false, g := g } := by
  have hb : (pyLower confirm == "y") = false := beq_eq_false_iff_ne.mpr hna
  simp [cleanSlateStep, thingsReaderClose, hb]

/-- Closed instance of C7: answering `"n"`. -/
theorem C7_declined_clean_slate_witness :
    cleanSlateStep true "n" ⟨[⟨0, "Work"⟩], [], 1, [], 0⟩ =
      ⟨some 0, false, ⟨[⟨0, "Work"⟩], [], 1, [], 0⟩⟩ :=
  C7_declined_clean_slate _ "n" (by decide)

/-! ## Claim C9: falsy-field omission in create_task -/

/-- C9: the request body built by `create_task` carries a notes field only
for a non-empty notes string (`None` and `""` are silently omitted), and a
due field only for a non-empty due-date string; an empty-string due date
yields no due field and no warning. -/
theorem C9_falsy_omission (title : String) (notes due : Option String) :
    ((notes = none ∨ notes = some "") → (buildTaskBody title notes due).1.2.1 = none) ∧
    (∀ s, notes = some s → s ≠ "" → (buildTaskBody title notes due).1.2.1 = some s) ∧
    ((due = none ∨ due = some "") →
      (buildTaskBody title notes due).1.2.2 = none ∧ (buildTaskBody title notes due).2 = false) := by
  refine ⟨?_, ?_, ?_⟩
  · rintro (rfl | rfl) <;>
      · simp [buildTaskBody, optStrTruthy]
        split <;> (try split) <;> rfl
  · rintro s rfl hs
    have hts : optStrTruthy (some s) = true := by simp [optStrTruthy, bne_iff_ne, hs]
    simp [buildTaskBody, hts]
    split <;> (try split) <;> rfl
  · rintro (rfl | rfl) <;>
      · refine ⟨?_, ?_⟩ <;> simp [buildTaskBody, optStrTruthy]

/-- Closed instances of C9's three conjuncts. -/
theorem C9_falsy_omission_witness :
    (buildTaskBody "T" (some "") none).1.2.1 = none ∧
    (buildTaskBody "T" (some "- Milk") (some "")).1.2.1 = some "- Milk" ∧
    (buildTaskBody "T" (some "- Milk") (some "")).1.2.2 = none ∧
    (buildTaskBody "T" (some "- Milk") (some "")).2 = false := by
  refine ⟨(C9_falsy_omission "T" (some "") none).1 (Or.inr rfl),
    (C9_falsy_omission "T" (some "- Milk") (some "")).2.1 "- Milk" rfl (by decide),
    ((C9_falsy_omission "T" (some "- Milk") (some "")).2.2 (Or.inr rfl)).1,
    ((C9_falsy_omission "T" (some "- Milk") (some "")).2.2 (Or.inr rfl)).2⟩

/-! ## Claim C10: first-match title lookup -/

/-- C10: `get_task_list_by_title` returns `none` when the underlying fetch
fails or no list's title matches exactly, and when several lists share the
title it returns the first one in fetch order. -/
theorem C10_first_match_lookup (g : GState) (title : String) :
    (∀ rest, g.oracle = false :: rest →
      (GoogleTasksClient.get_task_list_by_title g title).1 = none) ∧
    (g.oracle = [] → (∀ l ∈ g.lists, l.title ≠ title) →
      (GoogleTasksClient.get_task_list_by_title g title).1 = none) ∧
    (g.oracle = [] → ∀ pre l post, g.lists = pre ++ l :: post → l.title = title →
      (∀ x ∈ pre, x.title ≠ title) →
      (GoogleTasksClient.get_task_list_by_title g title).1 = some l) := by
  refine ⟨?_, ?_, ?_⟩
  · intro rest h
    simp [GoogleTasksClient.get_task_list_by_title, get_task_lists_fail h]
  · intro h hnone
    rw [get_task_list_by_title_nil title h]
    simp only [List.find?_eq_none]
    intro x hx
    simpa using hnone x hx
  · intro h pre l post hsplit hl hpre
    rw [get_task_list_by_title_nil title h]
    have h1 : pre.find? (fun x => x.title == title) = none := by
      rw [List.find?_eq_none]
      intro x hx
      simpa using hpre x hx
    have h2 : ((fun x => x.title == title) l) = true := by simp [hl]
    have h3 : (l :: post).find? (fun x => x.title == title) = some l :=
      List.find?_cons_of_pos _ h2
    show g.lists.find? (fun x => x.title == title) = some l
    rw [hsplit, List.find?_append, h1, h3]
    rfl

/-- Closed instances of C10: failing fetch, and a duplicate-title scan
returning the first match. -/
theorem C10_first_match_lookup_witness :
    (GoogleTasksClient.get_task_list_by_title ⟨[⟨0, "A"⟩], [], 1, [false], 0⟩ "A").1 = none ∧
    (GoogleTasksClient.get_task_list_by_title ⟨[⟨5, "B"⟩, ⟨0, "A"⟩, ⟨1, "A"⟩], [], 2, [], 0⟩
        "A").1 = some ⟨0, "A"⟩ := by
  refine ⟨(C10_first_match_lookup _ "A").1 [] rfl, ?_⟩
  exact (C10_first_match_lookup _ "A").2.2 rfl [⟨5, "B"⟩] ⟨0, "A"⟩ [⟨1, "A"⟩] rfl rfl
    (by decide)

/-! ## Generic fold machinery over the driver state -/

theorem foldl_pres {α : Type} {P : MigState → Prop} {f : MigState → α → MigState}
    (hf : ∀ s x, P s → P (f s x)) :
    ∀ (l : List α) (s : MigState), P s → P (l.foldl f s) := by
  intro l
  induction l with
  | nil => exact fun s hs => hs
  | cons x xs ih => exact fun s hs => ih _ (hf s x hs)

theorem foldl_estab {α : Type} {P Q : MigState → Prop} {f : MigState → α → MigState}
    (hP : ∀ s x, P s → P (f s x)) (hQ : ∀ s x, Q s → Q (f s x))
    {x0 : α} (hx : ∀ s, P s → Q (f s x0)) :
    ∀ (l : List α) (s : MigState), x0 ∈ l → P s → Q (l.foldl f s) := by
  intro l
  induction l with
  | nil => intro s hm; exact absurd hm (List.not_mem_nil x0)
  | cons y ys ih =>
    intro s hm hs
    rcases List.mem_cons.mp hm with rfl | hmem
    · exact foldl_pres hQ ys _ (hx s hs)
    · exact ih _ hmem (hP s y hs)

theorem foldl_keys {α : Type} {f : MigState → α → MigState} {k c : α → List String}
    (hf : ∀ s x, s.g.oracle = [] → (f s x).g.oracle = [] ∧
        (f s x).placed = s.placed ++ k x ∧
        (f s x).createdFor.map Prod.fst = s.createdFor.map Prod.fst ++ c x) :
    ∀ (l : List α) (s : MigState), s.g.oracle = [] →
      (l.foldl f s).g.oracle = [] ∧
      (l.foldl f s).placed = s.placed ++ l.flatMap k ∧
      (l.foldl f s).createdFor.map Prod.fst = s.createdFor.map Prod.fst ++ l.flatMap c := by
  intro l
  induction l with
  | nil => intro s hs; exact ⟨hs, by simp, by simp⟩
  | cons x xs ih =>
    intro s hs
    obtain ⟨h1, h2, h3⟩ := hf s x hs
    obtain ⟨i1, i2, i3⟩ := ih (f s x) h1
    refine ⟨i1, ?_, ?_⟩
    · simp [List.foldl_cons, List.flatMap_cons, i2, h2, List.append_assoc]
    · simp [List.foldl_cons, List.flatMap_cons, i3, h3, List.append_assoc]

theorem flatMap_singleton_eq_map {α β : Type} (f : α → β) (l : List α) :
    l.flatMap (fun x => [f x]) = l.map f := by
  induction l with
  | nil => rfl
  | cons x xs ih => simp [List.flatMap_cons, ih]

theorem StepExtend.rfl' (s : MigState) : StepExtend s s :=
  ⟨[], [], by simp, by simp, by simp⟩

theorem StepExtend.trans' {u v w : MigState} (h1 : StepExtend u v)
    (h2 : StepExtend v w) : StepExtend u w := by
  obtain ⟨ps1, cs1, hp1, hc1, hm1⟩ := h1
  obtain ⟨ps2, cs2, hp2, hc2, hm2⟩ := h2
  refine ⟨ps1 ++ ps2, cs1 ++ cs2, by simp [hp2, hp1], by simp [hc2, hc1], ?_⟩
  intro u hu
  rcases List.mem_append.mp hu with hu | hu
  · obtain ⟨gt, hgt⟩ := hm1 u hu
    exact ⟨gt, List.mem_append.mpr (Or.inl hgt)⟩
  · obtain ⟨gt, hgt⟩ := hm2 u hu
    exact ⟨gt, List.mem_append.mpr (Or.inr hgt)⟩

theorem PlacedLogged_of_extend {s s1 : MigState} (h : PlacedLogged s)
    (he : StepExtend s s1) : PlacedLogged s1 := by
  obtain ⟨ps, cs, hp, hc, hm⟩ := he
  intro u hu
  rw [hp] at hu
  rcases List.mem_append.mp hu with hu | hu
  · obtain ⟨gt, hgt⟩ := h u hu
    exact ⟨gt, by rw [hc]; exact List.mem_append.mpr (Or.inl hgt)⟩
  · obtain ⟨gt, hgt⟩ := hm u hu
    exact ⟨gt, by rw [hc]; exact List.mem_append.mpr (Or.inr hgt)⟩

theorem mem_createdFor_of_extend {s s1 : MigState} {e : String × GTask}
    (h : e ∈ s.createdFor) (he : StepExtend s s1) : e ∈ s1.createdFor := by
  obtain ⟨ps, cs, hp, hc, hm⟩ := he
  rw [hc]
  exact List.mem_append.mpr (Or.inl h)

theorem foldl_stepExtend {α : Type} {f : MigState → α → MigState}
    (hf : ∀ s x, StepExtend s (f s x)) :
    ∀ (l : List α) (s : MigState), StepExtend s (l.foldl f s) := by
  intro l
  induction l with
  | nil => exact fun s => StepExtend.rfl' s
  | cons x xs ih => exact fun s => StepExtend.trans' (hf s x) (ih (f s x))

/-! ## Field-preservation lemmas for the driver helpers -/

theorem countTitled_zero_of_find_none {ls : List GTaskList} {T : String}
    (h : ls.find? (fun l => l.title == T) = none) : countTitled ls T = 0 := by
  rw [List.find?_eq_none] at h
  unfold countTitled
  rw [List.length_eq_zero, List.filter_eq_nil_iff]
  intro l hl
  exact h l hl

theorem gocd_fields (s : MigState) :
    (get_or_create_default_list s).2.placed = s.placed ∧
    (get_or_create_default_list s).2.createdFor = s.createdFor ∧
    (get_or_create_default_list s).2.listsCache = s.listsCache ∧
    ∀ l, s.defaultCache = some l → (get_or_create_default_list s).2.defaultCache = some l := by
  unfold get_or_create_default_list
  split
  · simp_all
  · split
    · simp_all
    · split <;> simp_all

theorem gocd_nil {s : MigState} (h : s.g.oracle = []) :
    ∃ l s1, get_or_create_default_list s = (some l, s1) ∧ s1.g.oracle = [] ∧
      s1.placed = s.placed ∧ s1.createdFor = s.createdFor ∧ s1.listsCache = s.listsCache ∧
      s1.defaultCache = some l ∧
      (s1.g.lists = s.g.lists ∨
        (s1.g.lists = s.g.lists ++ [{ id := s.g.nextId, title := DEFAULT_LIST_TITLE }] ∧
         countTitled s.g.lists DEFAULT_LIST_TITLE = 0)) := by
  rcases hdc : s.defaultCache with _ | l
  · rcases hf : s.g.lists.find? (fun l => l.title == DEFAULT_LIST_TITLE) with _ | l
    · have heq : get_or_create_default_list s =
          (some { id := s.g.nextId, title := DEFAULT_LIST_TITLE },
           { s with
              g := { s.g with
                      lists := s.g.lists ++ [{ id := s.g.nextId, title := DEFAULT_LIST_TITLE }],
                      nextId := s.g.nextId + 1 },
              defaultCache := some { id := s.g.nextId, title := DEFAULT_LIST_TITLE } }) := by
        simp [get_or_create_default_list, hdc, get_task_list_by_title_nil _ h, hf,
          create_task_list_nil _ h]
      refine ⟨_, _, heq, by simp [h], by simp, by simp, by simp, by simp, ?_⟩
      exact Or.inr ⟨by simp, countTitled_zero_of_find_none hf⟩
    · have heq : get_or_create_default_list s =
          (some l, { s with defaultCache := some l }) := by
        simp [get_or_create_default_list, hdc, get_task_list_by_title_nil _ h, hf]
      exact ⟨l, _, heq, h, rfl, rfl, rfl, rfl, Or.inl rfl⟩
  · exact ⟨l, s, by simp [get_or_create_default_list, hdc], h, rfl, rfl, rfl, hdc, Or.inl rfl⟩

theorem resolveTarget_nil {s : MigState} (a : Option String) (h : s.g.oracle = []) :
    ∃ tl s1, resolveTarget s a = (some tl, s1) ∧ s1.g.oracle = [] ∧
      s1.placed = s.placed ∧ s1.createdFor = s.createdFor ∧ s1.listsCache = s.listsCache ∧
      (s1.g.lists = s.g.lists ∨
        (s1.g.lists = s.g.lists ++ [{ id := s.g.nextId, title := DEFAULT_LIST_TITLE }] ∧
         countTitled s.g.lists DEFAULT_LIST_TITLE = 0)) := by
  rcases a with _ | a
  · obtain ⟨l, s1, hg, h1, h2, h3, h4, _, h5⟩ := gocd_nil h
    exact ⟨l, s1, by simp [resolveTarget, hg], h1, h2, h3, h4, h5⟩
  · by_cases ha : (a != "") = true
    · rcases hc : lookupCache s.listsCache a with _ | l
      · obtain ⟨l, s1, hg, h1, h2, h3, h4, _, h5⟩ := gocd_nil h
        exact ⟨l, s1, by simp [resolveTarget, ha, hc, hg], h1, h2, h3, h4, h5⟩
      · exact ⟨l, s, by simp [resolveTarget, ha, hc], h, rfl, rfl, rfl, Or.inl rfl⟩
    · obtain ⟨l, s1, hg, h1, h2, h3, h4, _, h5⟩ := gocd_nil h
      exact ⟨l, s1, by simp [resolveTarget, ha, hg], h1, h2, h3, h4, h5⟩

/-! ## Keys characterization of the phases under a successful oracle -/

theorem flatMap_nil_fun {α : Type} (l : List α) : l.flatMap (fun _ => ([] : List String)) = [] := by
  induction l with
  | nil => rfl
  | cons x xs ih => simp [List.flatMap_cons, ih]

theorem phase2TaskStep_keys (lid pid : Nat) (s : MigState) (t : TMTask)
    (h : s.g.oracle = []) :
    (phase2TaskStep lid pid s t).g.oracle = [] ∧
    (phase2TaskStep lid pid s t).placed = s.placed ++ [t.uuid] ∧
    (phase2TaskStep lid pid s t).createdFor.map Prod.fst =
      s.createdFor.map Prod.fst ++ [t.uuid] := by
  unfold phase2TaskStep
  rw [create_task_nil _ _ _ _ _ h]
  simp [h]

theorem phase2TaskStep_fold_keys (lid pid : Nat) (l : List TMTask) (s : MigState)
    (h : s.g.oracle = []) :
    (l.foldl (phase2TaskStep lid pid) s).g.oracle = [] ∧
    (l.foldl (phase2TaskStep lid pid) s).placed = s.placed ++ l.map TMTask.uuid ∧
    (l.foldl (phase2TaskStep lid pid) s).createdFor.map Prod.fst =
      s.createdFor.map Prod.fst ++ l.map TMTask.uuid := by
  have hk := foldl_keys (f := phase2TaskStep lid pid) (k := fun t => [t.uuid])
    (c := fun t => [t.uuid]) (fun s' x h' => phase2TaskStep_keys lid pid s' x h') l s h
  simpa [flatMap_singleton_eq_map] using hk

theorem phase2TaskStep_fold_from (lid pid : Nat) (k : String) (l : List TMTask)
    (s0 s : MigState) (ho : s.g.oracle = [])
    (hp : s.placed = s0.placed ++ [k])
    (hc : s.createdFor.map Prod.fst = s0.createdFor.map Prod.fst ++ [k]) :
    (l.foldl (phase2TaskStep lid pid) s).g.oracle = [] ∧
    (l.foldl (phase2TaskStep lid pid) s).placed = s0.placed ++ (k :: l.map TMTask.uuid) ∧
    (l.foldl (phase2TaskStep lid pid) s).createdFor.map Prod.fst =
      s0.createdFor.map Prod.fst ++ (k :: l.map TMTask.uuid) := by
  obtain ⟨o1, p1, c1⟩ := phase2TaskStep_fold_keys lid pid l s ho
  exact ⟨o1, by simp [p1, hp], by simp [c1, hc]⟩

theorem phase2HeadingStep_keys (db : ThingsDB) (lid gpid : Nat) (s : MigState) (hd : TMTask)
    (h : s.g.oracle = []) :
    (phase2HeadingStep db lid gpid s hd).g.oracle = [] ∧
    (phase2HeadingStep db lid gpid s hd).placed = s.placed ++ headingKeys db hd ∧
    (phase2HeadingStep db lid gpid s hd).createdFor.map Prod.fst =
      s.createdFor.map Prod.fst ++ headingKeys db hd := by
  unfold phase2HeadingStep
  rw [create_task_nil _ _ _ _ _ h]
  simp only [headingKeys]
  exact phase2TaskStep_fold_from lid s.g.nextId hd.uuid _ s _ (by simp [h]) (by simp) (by simp)

theorem phase2ProjectTail_keys (db : ThingsDB) (lid pid : Nat) (pu : String)
    (s0 s : MigState) (ho : s.g.oracle = [])
    (hp : s.placed = s0.placed ++ [pu])
    (hc : s.createdFor.map Prod.fst = s0.createdFor.map Prod.fst ++ [pu]) :
    ((ThingsReader.get_tasks_for_project db pu).foldl (phase2TaskStep lid pid)
      ((ThingsReader.get_headings_for_project db pu).foldl
        (phase2HeadingStep db lid pid) s)).g.oracle = [] ∧
    ((ThingsReader.get_tasks_for_project db pu).foldl (phase2TaskStep lid pid)
      ((ThingsReader.get_headings_for_project db pu).foldl
        (phase2HeadingStep db lid pid) s)).placed =
      s0.placed ++ (pu :: ((ThingsReader.get_headings_for_project db pu).flatMap
        (headingKeys db) ++ (ThingsReader.get_tasks_for_project db pu).map TMTask.uuid)) ∧
    ((ThingsReader.get_tasks_for_project db pu).foldl (phase2TaskStep lid pid)
      ((ThingsReader.get_headings_for_project db pu).foldl
        (phase2HeadingStep db lid pid) s)).createdFor.map Prod.fst =
      s0.createdFor.map Prod.fst ++ (pu :: ((ThingsReader.get_headings_for_project db pu).flatMap
        (headingKeys db) ++ (ThingsReader.get_tasks_for_project db pu).map TMTask.uuid)) := by
  obtain ⟨o1, p1, c1⟩ := foldl_keys (k := headingKeys db) (c := headingKeys db)
    (fun s' x h' => phase2HeadingStep_keys db lid pid s' x h')
    (ThingsReader.get_headings_for_project db pu) s ho
  obtain ⟨o2, p2, c2⟩ := phase2TaskStep_fold_keys lid pid
    (ThingsReader.get_tasks_for_project db pu) _ o1
  refine ⟨o2, ?_, ?_⟩
  · simp [p2, p1, hp, List.append_assoc]
  · simp [c2, c1, hc, List.append_assoc]

theorem phase2Project_keys (db : ThingsDB) (s : MigState) (p : TMTask)
    (h : s.g.oracle = []) :
    (phase2Project db s p).g.oracle = [] ∧
    (phase2Project db s p).placed = s.placed ++ projectKeys db p ∧
    (phase2Project db s p).createdFor.map Prod.fst =
      s.createdFor.map Prod.fst ++ projectKeys db p := by
  obtain ⟨target, s1, heq, ho1, hp1, hc1, hcache, _⟩ := resolveTarget_nil p.area h
  unfold phase2Project
  rw [heq]
  dsimp only
  rw [create_task_nil _ _ _ _ _ ho1]
  dsimp only
  simp only [projectKeys]
  exact phase2ProjectTail_keys db target.id s1.g.nextId p.uuid s _
    (by simp [ho1]) (by simp [hp1]) (by simp [hc1])

theorem phase2_keys (db : ThingsDB) (s : MigState) (h : s.g.oracle = []) :
    (phase2 db s).g.oracle = [] ∧
    (phase2 db s).placed = s.placed ++ phase2Keys db ∧
    (phase2 db s).createdFor.map Prod.fst = s.createdFor.map Prod.fst ++ phase2Keys db := by
  have hk := foldl_keys (k := projectKeys db) (c := projectKeys db)
    (fun s' x h' => phase2Project_keys db s' x h') (ThingsReader.get_projects db) s h
  simpa [phase2, phase2Keys] using hk

theorem phase1Step_nil (s : MigState) (a : TMArea) (h : s.g.oracle = []) :
    (phase1Step s a).g.oracle = [] ∧ (phase1Step s a).placed = s.placed ∧
    (phase1Step s a).createdFor = s.createdFor := by
  unfold phase1Step
  rw [get_task_list_by_title_nil _ h]
  rcases hf : s.g.lists.find? (fun l => l.title == a.title) with _ | l <;> rw [hf]
  · dsimp only
    rw [create_task_list_nil _ h]
    simp [h]
  · simp [h]

theorem phase1_nil (db : ThingsDB) (s : MigState) (h : s.g.oracle = []) :
    (phase1 db s).g.oracle = [] ∧ (phase1 db s).placed = s.placed ∧
    (phase1 db s).createdFor = s.createdFor := by
  unfold phase1
  refine foldl_pres (P := fun s' => s'.g.oracle = [] ∧ s'.placed = s.placed ∧
    s'.createdFor = s.createdFor) ?_ _ _ ⟨h, rfl, rfl⟩
  rintro s' x ⟨h1, h2, h3⟩
  obtain ⟨o, p, c⟩ := phase1Step_nil s' x h1
  exact ⟨o, p.trans h2, c.trans h3⟩

theorem phase3Step_keys (s : MigState) (t : TMTask) (h : s.g.oracle = []) :
    (phase3Step s t).g.oracle = [] ∧ (phase3Step s t).placed = s.placed ∧
    (phase3Step s t).createdFor.map Prod.fst = s.createdFor.map Prod.fst ++ [t.uuid] := by
  obtain ⟨target, s1, heq, ho1, hp1, hc1, _, _⟩ := resolveTarget_nil t.area h
  unfold phase3Step
  rw [heq]
  dsimp only
  rw [create_task_nil _ _ _ _ _ ho1]
  simp [ho1, hp1, hc1]

theorem phase3_keys (db : ThingsDB) (s : MigState) (h : s.g.oracle = []) :
    (phase3 db s).g.oracle = [] ∧ (phase3 db s).placed = s.placed ∧
    (phase3 db s).createdFor.map Prod.fst = s.createdFor.map Prod.fst ++
      (standalone_tasks_to_migrate db s.placed).map TMTask.uuid := by
  obtain ⟨o, p, c⟩ := foldl_keys (k := fun _ => ([] : List String))
    (c := fun t => [t.uuid])
    (fun s' x h' => by
      obtain ⟨o', p', c'⟩ := phase3Step_keys s' x h'
      exact ⟨o', by simp [p'], c'⟩)
    (standalone_tasks_to_migrate db s.placed) s h
  refine ⟨o, ?_, ?_⟩
  · simpa [flatMap_nil_fun] using p
  · simpa [flatMap_singleton_eq_map] using c

/-! ## Extension lemmas under an arbitrary oracle, and claim C8 -/

theorem resolveTarget_fields (s : MigState) (a : Option String) :
    (resolveTarget s a).2.placed = s.placed ∧
    (resolveTarget s a).2.createdFor = s.createdFor := by
  obtain ⟨hp, hc, _, _⟩ := gocd_fields s
  rcases a with _ | a
  · exact ⟨by simpa [resolveTarget] using hp, by simpa [resolveTarget] using hc⟩
  · by_cases ha : (a != "") = true
    · rcases hcc : lookupCache s.listsCache a with _ | l
      · exact ⟨by simpa [resolveTarget, ha, hcc] using hp,
          by simpa [resolveTarget, ha, hcc] using hc⟩
      · exact ⟨by simp [resolveTarget, ha, hcc], by simp [resolveTarget, ha, hcc]⟩
    · exact ⟨by simpa [resolveTarget, ha] using hp, by simpa [resolveTarget, ha] using hc⟩

theorem phase1Step_fields (s : MigState) (a : TMArea) :
    (phase1Step s a).placed = s.placed ∧ (phase1Step s a).createdFor = s.createdFor := by
  unfold phase1Step
  rcases h1 : GoogleTasksClient.get_task_list_by_title s.g a.title with ⟨ol, g1⟩
  rcases ol with _ | l
  · dsimp only
    rcases h2 : GoogleTasksClient.create_task_list g1 a.title with ⟨ol2, g2⟩
    rcases ol2 with _ | l2 <;> exact ⟨rfl, rfl⟩
  · exact ⟨rfl, rfl⟩

theorem phase2TaskStep_extend (lid pid : Nat) (s : MigState) (t : TMTask) :
    StepExtend s (phase2TaskStep lid pid s t) := by
  unfold phase2TaskStep
  rcases hct : GoogleTasksClient.create_task s.g lid t.title t.notes t.dueDate (some pid)
    with ⟨og, g1⟩
  rcases og with _ | gt
  · exact ⟨[], [], by simp, by simp, by simp⟩
  · refine ⟨[t.uuid], [(t.uuid, gt)], rfl, rfl, ?_⟩
    intro u hu
    rw [List.mem_singleton] at hu
    subst hu
    exact ⟨gt, by simp⟩

theorem phase2HeadingStep_extend (db : ThingsDB) (lid gpid : Nat) (s : MigState)
    (hd : TMTask) : StepExtend s (phase2HeadingStep db lid gpid s hd) := by
  unfold phase2HeadingStep
  rcases hct : GoogleTasksClient.create_task s.g lid ("--- " ++ hd.title ++ " ---")
    none none (some gpid) with ⟨og, g1⟩
  rcases og with _ | gh
  · exact ⟨[], [], by simp, by simp, by simp⟩
  · dsimp only
    refine StepExtend.trans'
      (v := ⟨g1, s.listsCache, s.defaultCache, s.placed ++ [hd.uuid],
        s.createdFor ++ [(hd.uuid, gh)]⟩) ?_ ?_
    · refine ⟨[hd.uuid], [(hd.uuid, gh)], rfl, rfl, ?_⟩
      intro u hu
      rw [List.mem_singleton] at hu
      subst hu
      exact ⟨gh, by simp⟩
    · exact foldl_stepExtend (fun s' x => phase2TaskStep_extend lid gh.id s' x) _ _

theorem phase2Project_extend (db : ThingsDB) (s : MigState) (p : TMTask) :
    StepExtend s (phase2Project db s p) := by
  obtain ⟨f1, f2⟩ := resolveTarget_fields s p.area
  unfold phase2Project
  rcases hrt : resolveTarget s p.area with ⟨ot, s1⟩
  rw [hrt] at f1 f2
  rcases ot with _ | target
  · exact ⟨[], [], by simpa using f1, by simpa using f2, by simp⟩
  · dsimp only
    rcases hct : GoogleTasksClient.create_task s1.g target.id p.title p.notes none none
      with ⟨og, g1⟩
    rcases og with _ | gp
    · exact ⟨[], [], by simpa using f1, by simpa using f2, by simp⟩
    · dsimp only
      refine StepExtend.trans'
        (v := ⟨g1, s1.listsCache, s1.defaultCache, s1.placed ++ [p.uuid],
          s1.createdFor ++ [(p.uuid, gp)]⟩) ?_ ?_
      · refine ⟨[p.uuid], [(p.uuid, gp)], ?_, ?_, ?_⟩
        · simpa using congrArg (fun l => l ++ [p.uuid]) f1
        · simpa using congrArg (fun l => l ++ [(p.uuid, gp)]) f2
        · intro u hu
          rw [List.mem_singleton] at hu
          subst hu
          exact ⟨gp, by simp⟩
      · exact StepExtend.trans'
          (foldl_stepExtend (fun s' x => phase2HeadingStep_extend db target.id gp.id s' x) _ _)
          (foldl_stepExtend (fun s' x => phase2TaskStep_extend target.id gp.id s' x) _ _)

theorem phase3Step_fields (s : MigState) (t : TMTask) :
    (phase3Step s t).placed = s.placed ∧ StepExtend s (phase3Step s t) := by
  obtain ⟨f1, f2⟩ := resolveTarget_fields s t.area
  unfold phase3Step
  rcases hrt : resolveTarget s t.area with ⟨ot, s1⟩
  rw [hrt] at f1 f2
  rcases ot with _ | target
  · exact ⟨by simpa using f1, ⟨[], [], by simpa using f1, by simpa using f2, by simp⟩⟩
  · dsimp only
    rcases hct : GoogleTasksClient.create_task s1.g target.id t.title t.notes t.dueDate none
      with ⟨og, g1⟩
    rcases og with _ | gt
    · exact ⟨by simpa using f1,
        ⟨[], [], by simpa using f1, by simpa using f2, by simp⟩⟩
    · refine ⟨by simpa using f1, ⟨[], [(t.uuid, gt)], by simpa using f1, ?_, by simp⟩⟩
      simpa using congrArg (fun l => l ++ [(t.uuid, gt)]) f2

/-- C8: nothing is added to the placed set during the Phase 3 sweep, and
every uuid in the placed set at the end of the run has a successfully
created destination counterpart recorded in the creation log (uuids are
marked only right after a non-failed create). -/
theorem C8_placed_set_soundness (db : ThingsDB) (g0 : GState) :
    (runMigration db g0).placed = (phase2 db (phase1 db (initMigState g0))).placed ∧
    ∀ u ∈ (runMigration db g0).placed, ∃ gt, (u, gt) ∈ (runMigration db g0).createdFor := by
  constructor
  · show (phase3 db (phase2 db (phase1 db (initMigState g0)))).placed = _
    unfold phase3
    refine foldl_pres
      (P := fun s' => s'.placed = (phase2 db (phase1 db (initMigState g0))).placed) ?_ _ _ rfl
    intro s' x hx
    exact ((phase3Step_fields s' x).1).trans hx
  · have h1 : PlacedLogged (initMigState g0) := by
      intro u hu
      simp [initMigState] at hu
    have h2 : PlacedLogged (phase1 db (initMigState g0)) := by
      unfold phase1
      refine foldl_pres ?_ _ _ h1
      intro s' x hx u hu
      obtain ⟨hp', hc'⟩ := phase1Step_fields s' x
      rw [hp'] at hu
      obtain ⟨gt, hg⟩ := hx u hu
      exact ⟨gt, by rw [hc']; exact hg⟩
    have h3 : PlacedLogged (phase2 db (phase1 db (initMigState g0))) := by
      unfold phase2
      exact foldl_pres
        (fun s' x hx => PlacedLogged_of_extend hx (phase2Project_extend db s' x)) _ _ h2
    have h4 : PlacedLogged (phase3 db (phase2 db (phase1 db (initMigState g0)))) := by
      unfold phase3
      exact foldl_pres
        (fun s' x hx => PlacedLogged_of_extend hx (phase3Step_fields s' x).2) _ _ h3
    exact h4

/-! ## List-creation count invariant (every create is guarded by a failed
title lookup), towards claims C3 and C4 -/

theorem countTitled_append (l1 l2 : List GTaskList) (T : String) :
    countTitled (l1 ++ l2) T = countTitled l1 T + countTitled l2 T := by
  simp [countTitled, List.filter_append]

theorem countInv_guard {g0lists glists g'lists : List GTaskList}
    (hi : ∀ T, countTitled glists T ≤ max (countTitled g0lists T) 1)
    (hg : g'lists = glists ∨
      ∃ nl, g'lists = glists ++ [nl] ∧ countTitled glists nl.title = 0) :
    ∀ T, countTitled g'lists T ≤ max (countTitled g0lists T) 1 := by
  rcases hg with hg | ⟨nl, hg, hz⟩
  · intro T
    rw [hg]
    exact hi T
  · intro T
    rw [hg, countTitled_append]
    by_cases hT : nl.title = T
    · have h0 : countTitled glists T = 0 := hT ▸ hz
      have h1 : countTitled [nl] T = 1 := by simp [countTitled, hT]
      rw [h0, h1]
      exact le_max_right _ 1
    · have h1 : countTitled [nl] T = 0 := by simp [countTitled, hT]
      rw [h1]
      simpa using hi T

theorem phase2TaskStep_g_lists (lid pid : Nat) (s : MigState) (t : TMTask)
    (h : s.g.oracle = []) : (phase2TaskStep lid pid s t).g.lists = s.g.lists := by
  unfold phase2TaskStep
  rw [create_task_nil _ _ _ _ _ h]

theorem phase2TaskStep_fold_g_lists_from (lid pid : Nat) (l : List TMTask)
    (ls0 : List GTaskList) :
    ∀ s : MigState, s.g.oracle = [] → s.g.lists = ls0 →
      (l.foldl (phase2TaskStep lid pid) s).g.lists = ls0 ∧
      (l.foldl (phase2TaskStep lid pid) s).g.oracle = [] := by
  induction l with
  | nil => exact fun s h hl => ⟨hl, h⟩
  | cons x xs ih =>
    intro s h hl
    have e1 := phase2TaskStep_g_lists lid pid s x h
    have e2 := (phase2TaskStep_keys lid pid s x h).1
    exact ih _ e2 (e1.trans hl)

theorem phase2HeadingStep_g_lists (db : ThingsDB) (lid gpid : Nat) (s : MigState)
    (hd : TMTask) (h : s.g.oracle = []) :
    (phase2HeadingStep db lid gpid s hd).g.lists = s.g.lists ∧
    (phase2HeadingStep db lid gpid s hd).g.oracle = [] := by
  unfold phase2HeadingStep
  rw [create_task_nil _ _ _ _ _ h]
  dsimp only
  exact phase2TaskStep_fold_g_lists_from lid s.g.nextId _ s.g.lists _ (by simp [h]) (by simp)

theorem phase2HeadingStep_fold_g_lists_from (db : ThingsDB) (lid gpid : Nat)
    (l : List TMTask) (ls0 : List GTaskList) :
    ∀ s : MigState, s.g.oracle = [] → s.g.lists = ls0 →
      (l.foldl (phase2HeadingStep db lid gpid) s).g.lists = ls0 ∧
      (l.foldl (phase2HeadingStep db lid gpid) s).g.oracle = [] := by
  induction l with
  | nil => exact fun s h hl => ⟨hl, h⟩
  | cons x xs ih =>
    intro s h hl
    obtain ⟨e1, e2⟩ := phase2HeadingStep_g_lists db lid gpid s x h
    exact ih _ e2 (e1.trans hl)

theorem phase2Project_guard (db : ThingsDB) (s : MigState) (p : TMTask)
    (h : s.g.oracle = []) :
    ((phase2Project db s p).g.lists = s.g.lists ∨
      ∃ nl, (phase2Project db s p).g.lists = s.g.lists ++ [nl] ∧
        countTitled s.g.lists nl.title = 0) ∧
    (phase2Project db s p).g.oracle = [] := by
  obtain ⟨target, s1, heq, ho1, hp1, hc1, hcache, hguard⟩ := resolveTarget_nil p.area h
  unfold phase2Project
  rw [heq]
  dsimp only
  rcases hct : GoogleTasksClient.create_task s1.g target.id p.title p.notes none none
    with ⟨og, g1⟩
  have hcc := create_task_nil target.id p.title p.notes none none ho1
  rw [hct] at hcc
  obtain ⟨hog, hg1⟩ := Prod.mk.injEq .. ▸ hcc
  subst hog
  dsimp only
  have hg1o : g1.oracle = [] := by rw [hg1]; simpa using ho1
  have hg1l : g1.lists = s1.g.lists := by rw [hg1]
  obtain ⟨e1, e2⟩ := phase2HeadingStep_fold_g_lists_from db target.id s1.g.nextId
    (ThingsReader.get_headings_for_project db p.uuid) s1.g.lists
    ⟨g1, s1.listsCache, s1.defaultCache, s1.placed ++ [p.uuid],
      s1.createdFor ++ [(p.uuid, ⟨s1.g.nextId, target.id, p.title,
        (buildTaskBody p.title p.notes none).1.2.1,
        (buildTaskBody p.title p.notes none).1.2.2, none⟩)]⟩
    hg1o hg1l
  obtain ⟨e3, e4⟩ := phase2TaskStep_fold_g_lists_from target.id _
    (ThingsReader.get_tasks_for_project db p.uuid) s1.g.lists _ e2 e1
  refine ⟨?_, e4⟩
  rcases hguard with hgl | ⟨hgl, hz⟩
  · exact Or.inl (e3.trans hgl)
  · exact Or.inr ⟨{ id := s.g.nextId, title := DEFAULT_LIST_TITLE }, e3.trans hgl, hz⟩

theorem phase3Step_guard (s : MigState) (t : TMTask) (h : s.g.oracle = []) :
    ((phase3Step s t).g.lists = s.g.lists ∨
      ∃ nl, (phase3Step s t).g.lists = s.g.lists ++ [nl] ∧
        countTitled s.g.lists nl.title = 0) ∧
    (phase3Step s t).g.oracle = [] := by
  obtain ⟨target, s1, heq, ho1, hp1, hc1, hcache, hguard⟩ := resolveTarget_nil t.area h
  unfold phase3Step
  rw [heq]
  dsimp only
  rw [create_task_nil _ _ _ _ _ ho1]
  dsimp only
  have he : ∀ T, countTitled s1.g.lists T = countTitled s1.g.lists T := fun _ => rfl
  rcases hguard with hgl | ⟨hgl, hz⟩
  · exact ⟨Or.inl (by simpa using hgl), by simpa using ho1⟩
  · exact ⟨Or.inr ⟨{ id := s.g.nextId, title := DEFAULT_LIST_TITLE }, by simpa using hgl, hz⟩,
      by simpa using ho1⟩

theorem phase1Step_guard (s : MigState) (a : TMArea) (h : s.g.oracle = []) :
    ((phase1Step s a).g.lists = s.g.lists ∨
      ∃ nl, (phase1Step s a).g.lists = s.g.lists ++ [nl] ∧
        countTitled s.g.lists nl.title = 0) ∧
    (phase1Step s a).g.oracle = [] := by
  unfold phase1Step
  rw [get_task_list_by_title_nil _ h]
  rcases hf : s.g.lists.find? (fun l => l.title == a.title) with _ | l <;> rw [hf]
  · dsimp only
    rw [create_task_list_nil _ h]
    exact ⟨Or.inr ⟨{ id := s.g.nextId, title := a.title }, by simp,
      countTitled_zero_of_find_none hf⟩, by simp [h]⟩
  · exact ⟨Or.inl rfl, by simpa using h⟩

theorem run_count_invariant (db : ThingsDB) (g0 : GState) (h : g0.oracle = []) :
    (runMigration db g0).g.oracle = [] ∧
    ∀ T, countTitled (runMigration db g0).g.lists T ≤ max (countTitled g0.lists T) 1 := by
  have step1 : ∀ (s : MigState) (a : TMArea),
      (s.g.oracle = [] ∧ ∀ T, countTitled s.g.lists T ≤ max (countTitled g0.lists T) 1) →
      ((phase1Step s a).g.oracle = [] ∧
        ∀ T, countTitled (phase1Step s a).g.lists T ≤ max (countTitled g0.lists T) 1) := by
    rintro s a ⟨h1, h2⟩
    obtain ⟨hg, ho⟩ := phase1Step_guard s a h1
    exact ⟨ho, countInv_guard h2 hg⟩
  have step2 : ∀ (s : MigState) (p : TMTask),
      (s.g.oracle = [] ∧ ∀ T, countTitled s.g.lists T ≤ max (countTitled g0.lists T) 1) →
      ((phase2Project db s p).g.oracle = [] ∧
        ∀ T, countTitled (phase2Project db s p).g.lists T ≤ max (countTitled g0.lists T) 1) := by
    rintro s p ⟨h1, h2⟩
    obtain ⟨hg, ho⟩ := phase2Project_guard db s p h1
    exact ⟨ho, countInv_guard h2 hg⟩
  have step3 : ∀ (s : MigState) (t : TMTask),
      (s.g.oracle = [] ∧ ∀ T, countTitled s.g.lists T ≤ max (countTitled g0.lists T) 1) →
      ((phase3Step s t).g.oracle = [] ∧
        ∀ T, countTitled (phase3Step s t).g.lists T ≤ max (countTitled g0.lists T) 1) := by
    rintro s t ⟨h1, h2⟩
    obtain ⟨hg, ho⟩ := phase3Step_guard s t h1
    exact ⟨ho, countInv_guard h2 hg⟩
  have base : (initMigState g0).g.oracle = [] ∧
      ∀ T, countTitled (initMigState g0).g.lists T ≤ max (countTitled g0.lists T) 1 :=
    ⟨h, fun T => le_max_left _ _⟩
  have h1 := foldl_pres step1 (ThingsReader.get_areas db) (initMigState g0) base
  have h2 := foldl_pres step2 (ThingsReader.get_projects db) (phase1 db (initMigState g0)) h1
  have h3 := foldl_pres step3
    (standalone_tasks_to_migrate db (phase2 db (phase1 db (initMigState g0))).placed)
    (phase2 db (phase1 db (initMigState g0))) h2
  exact h3

/-! ## Default-list memoization: claim C4 -/

theorem gocd_memo {s : MigState} {l : GTaskList} (h : s.defaultCache = some l) :
    get_or_create_default_list s = (some l, s) := by
  simp [get_or_create_default_list, h]

theorem resolveTarget_dc {s : MigState} {l : GTaskList} (a : Option String)
    (h : s.defaultCache = some l) : (resolveTarget s a).2.defaultCache = some l := by
  rcases a with _ | a
  · simp [resolveTarget, gocd_memo h]
    exact h
  · by_cases ha : (a != "") = true
    · rcases hcc : lookupCache s.listsCache a with _ | tl
      · simp [resolveTarget, ha, hcc, gocd_memo h]
        exact h
      · simp [resolveTarget, ha, hcc]
        exact h
    · simp [resolveTarget, ha, gocd_memo h]
      exact h

theorem phase1Step_dc (s : MigState) (a : TMArea) :
    (phase1Step s a).defaultCache = s.defaultCache := by
  unfold phase1Step
  rcases h1 : GoogleTasksClient.get_task_list_by_title s.g a.title with ⟨ol, g1⟩
  rcases ol with _ | l
  · dsimp only
    rcases h2 : GoogleTasksClient.create_task_list g1 a.title with ⟨ol2, g2⟩
    rcases ol2 with _ | l2 <;> rfl
  · rfl

theorem phase2TaskStep_dc (lid pid : Nat) (s : MigState) (t : TMTask) :
    (phase2TaskStep lid pid s t).defaultCache = s.defaultCache := by
  unfold phase2TaskStep
  rcases hct : GoogleTasksClient.create_task s.g lid t.title t.notes t.dueDate (some pid)
    with ⟨og, g1⟩
  rcases og with _ | gt <;> rfl

theorem phase2TaskStep_fold_dc (lid pid : Nat) (l : List TMTask) :
    ∀ s : MigState, (l.foldl (phase2TaskStep lid pid) s).defaultCache = s.defaultCache := by
  induction l with
  | nil => intro s; rfl
  | cons x xs ih => intro s; exact (ih _).trans (phase2TaskStep_dc lid pid s x)

theorem phase2HeadingStep_dc (db : ThingsDB) (lid gpid : Nat) (s : MigState) (hd : TMTask) :
    (phase2HeadingStep db lid gpid s hd).defaultCache = s.defaultCache := by
  unfold phase2HeadingStep
  rcases hct : GoogleTasksClient.create_task s.g lid ("--- " ++ hd.title ++ " ---")
    none none (some gpid) with ⟨og, g1⟩
  rcases og with _ | gh
  · rfl
  · dsimp only
    exact phase2TaskStep_fold_dc lid gh.id _ _

theorem phase2HeadingStep_fold_dc (db : ThingsDB) (lid gpid : Nat) (l : List TMTask) :
    ∀ s : MigState,
      (l.foldl (phase2HeadingStep db lid gpid) s).defaultCache = s.defaultCache := by
  induction l with
  | nil => intro s; rfl
  | cons x xs ih => intro s; exact (ih _).trans (phase2HeadingStep_dc db lid gpid s x)

theorem phase2Project_dcmono (db : ThingsDB) (s : MigState) (p : TMTask) {l : GTaskList}
    (h : s.defaultCache = some l) : (phase2Project db s p).defaultCache = some l := by
  have hrc := resolveTarget_dc p.area h
  unfold phase2Project
  rcases hrt : resolveTarget s p.area with ⟨ot, s1⟩
  rw [hrt] at hrc
  rcases ot with _ | target
  · exact hrc
  · dsimp only
    rcases hct : GoogleTasksClient.create_task s1.g target.id p.title p.notes none none
      with ⟨og, g1⟩
    rcases og with _ | gp
    · exact hrc
    · dsimp only
      exact ((phase2TaskStep_fold_dc target.id gp.id _ _).trans
        (phase2HeadingStep_fold_dc db target.id gp.id _ _)).trans hrc

theorem phase3Step_dcmono (s : MigState) (t : TMTask) {l : GTaskList}
    (h : s.defaultCache = some l) : (phase3Step s t).defaultCache = some l := by
  have hrc := resolveTarget_dc t.area h
  unfold phase3Step
  rcases hrt : resolveTarget s t.area with ⟨ot, s1⟩
  rw [hrt] at hrc
  rcases ot with _ | target
  · exact hrc
  · dsimp only
    rcases hct : GoogleTasksClient.create_task s1.g target.id t.title t.notes t.dueDate none
      with ⟨og, g1⟩
    rcases og with _ | gt <;> exact hrc

theorem run_dc_stable (db : ThingsDB) {l : GTaskList} (s : MigState)
    (hs : s.defaultCache = some l) :
    (phase3 db (phase2 db (phase1 db s))).defaultCache = some l := by
  have h1 : (phase1 db s).defaultCache = some l := by
    unfold phase1
    refine foldl_pres (P := fun s' => s'.defaultCache = some l) ?_ _ _ hs
    intro s' x hx
    exact (phase1Step_dc s' x).trans hx
  have h2 : (phase2 db (phase1 db s)).defaultCache = some l := by
    unfold phase2
    exact foldl_pres (P := fun s' => s'.defaultCache = some l)
      (fun s' x hx => phase2Project_dcmono db s' x hx) _ _ h1
  unfold phase3
  exact foldl_pres (P := fun s' => s'.defaultCache = some l)
    (fun s' x hx => phase3Step_dcmono s' x hx) _ _ h2

/-- C4: the memoized default list: a fallback that finds the memo filled
returns the cached list with no service interaction; once filled, the memo
still holds the same list after the remaining phases of the run; and over a
whole successful run at most one list with the default title is created. -/
theorem C4_default_list_memoization (db db2 : ThingsDB) (g0 : GState) (s : MigState)
    (l : GTaskList) (hor : g0.oracle = []) (hmemo : s.defaultCache = some l) :
    get_or_create_default_list s = (some l, s) ∧
    (phase3 db2 (phase2 db2 (phase1 db2 s))).defaultCache = some l ∧
    countTitled (runMigration db g0).g.lists DEFAULT_LIST_TITLE ≤
      countTitled g0.lists DEFAULT_LIST_TITLE + 1 := by
  refine ⟨gocd_memo hmemo, run_dc_stable db2 s hmemo, ?_⟩
  have hb := (run_count_invariant db g0 hor).2 DEFAULT_LIST_TITLE
  exact hb.trans (Nat.max_le.mpr ⟨Nat.le_succ _, Nat.succ_le_succ (Nat.zero_le _)⟩)

/-- Closed instance of C4. -/
theorem C4_default_list_memoization_witness :
    get_or_create_default_list ⟨⟨[], [], 0, [], 0⟩, [], some ⟨9, "Things Imported Tasks"⟩,
        [], []⟩ = (some ⟨9, "Things Imported Tasks"⟩, ⟨⟨[], [], 0, [], 0⟩, [],
        some ⟨9, "Things Imported Tasks"⟩, [], []⟩) ∧
    (phase3 ⟨[], []⟩ (phase2 ⟨[], []⟩ (phase1 ⟨[], []⟩ ⟨⟨[], [], 0, [], 0⟩, [],
        some ⟨9, "Things Imported Tasks"⟩, [], []⟩))).defaultCache =
      some ⟨9, "Things Imported Tasks"⟩ ∧
    countTitled (runMigration ⟨[], []⟩ ⟨[], [], 0, [], 0⟩).g.lists DEFAULT_LIST_TITLE ≤
      countTitled ([] : List GTaskList) DEFAULT_LIST_TITLE + 1 :=
  C4_default_list_memoization ⟨[], []⟩ ⟨[], []⟩ ⟨[], [], 0, [], 0⟩
    ⟨⟨[], [], 0, [], 0⟩, [], some ⟨9, "Things Imported Tasks"⟩, [], []⟩
    ⟨9, "Things Imported Tasks"⟩ rfl rfl

/-! ## Idempotent Phase 1 list resolution: claim C3 -/

theorem lookupCache_cons_self (k : String) (v : GTaskList) (c : List (String × GTaskList)) :
    lookupCache ((k, v) :: c) k = some v := by
  simp [lookupCache]

theorem lookupCache_cons_ne {k k' : String} (v : GTaskList) (c : List (String × GTaskList))
    (h : k' ≠ k) : lookupCache ((k', v) :: c) k = lookupCache c k := by
  simp [lookupCache, List.find?_cons, h]

theorem find?_append_some {α : Type} {l1 l2 : List α} {p : α → Bool} {x : α}
    (h : l1.find? p = some x) : (l1 ++ l2).find? p = some x := by
  rw [List.find?_append, h]
  rfl

theorem phase1Step_shape (s : MigState) (a : TMArea) (h : s.g.oracle = []) :
    (∃ f, s.g.lists.find? (fun x => x.title == a.title) = some f ∧
      phase1Step s a =
        ⟨s.g, (a.uuid, f) :: s.listsCache, s.defaultCache, s.placed, s.createdFor⟩) ∨
    (s.g.lists.find? (fun x => x.title == a.title) = none ∧
      phase1Step s a =
        ⟨⟨s.g.lists ++ [⟨s.g.nextId, a.title⟩], s.g.tasks, s.g.nextId + 1, s.g.oracle,
          s.g.warnings⟩, (a.uuid, ⟨s.g.nextId, a.title⟩) :: s.listsCache, s.defaultCache,
          s.placed, s.createdFor⟩) := by
  unfold phase1Step
  rw [get_task_list_by_title_nil _ h]
  rcases hf : s.g.lists.find? (fun x => x.title == a.title) with _ | f <;> rw [hf]
  · dsimp only
    rw [create_task_list_nil _ h]
    exact Or.inr ⟨rfl, rfl⟩
  · exact Or.inl ⟨f, rfl, rfl⟩

theorem phase1Step_pres_resolve (s : MigState) (x a : TMArea)
    (h : s.g.oracle = []) (hne : x.uuid ≠ a.uuid)
    (hP : ∃ lst, lookupCache s.listsCache a.uuid = some lst ∧
      s.g.lists.find? (fun y => y.title == a.title) = some lst) :
    ∃ lst, lookupCache (phase1Step s x).listsCache a.uuid = some lst ∧
      (phase1Step s x).g.lists.find? (fun y => y.title == a.title) = some lst := by
  obtain ⟨lst, hc, hf⟩ := hP
  rcases phase1Step_shape s x h with ⟨f, hfind, heq⟩ | ⟨hfind, heq⟩
  · rw [heq]
    exact ⟨lst, by rw [lookupCache_cons_ne _ _ hne]; exact hc, hf⟩
  · rw [heq]
    exact ⟨lst, by rw [lookupCache_cons_ne _ _ hne]; exact hc, find?_append_some hf⟩

theorem phase1_fold_pres_resolve (a : TMArea) :
    ∀ (l : List TMArea) (s : MigState), s.g.oracle = [] → (∀ x ∈ l, x.uuid ≠ a.uuid) →
      (∃ lst, lookupCache s.listsCache a.uuid = some lst ∧
        s.g.lists.find? (fun y => y.title == a.title) = some lst) →
      ∃ lst, lookupCache (l.foldl phase1Step s).listsCache a.uuid = some lst ∧
        (l.foldl phase1Step s).g.lists.find? (fun y => y.title == a.title) = some lst := by
  intro l
  induction l with
  | nil => exact fun s _ _ hP => hP
  | cons y ys ih =>
    intro s h hne hP
    exact ih _ (phase1Step_nil s y h).1 (fun x hx => hne x (List.mem_cons_of_mem y hx))
      (phase1Step_pres_resolve s y a h (hne y (List.mem_cons_self y ys)) hP)

theorem phase1Step_estab_resolve (s : MigState) (a : TMArea) (h : s.g.oracle = []) :
    ∃ lst, lookupCache (phase1Step s a).listsCache a.uuid = some lst ∧
      (phase1Step s a).g.lists.find? (fun y => y.title == a.title) = some lst := by
  rcases phase1Step_shape s a h with ⟨f, hfind, heq⟩ | ⟨hfind, heq⟩
  · rw [heq]
    exact ⟨f, lookupCache_cons_self _ _ _, hfind⟩
  · rw [heq]
    refine ⟨⟨s.g.nextId, a.title⟩, lookupCache_cons_self _ _ _, ?_⟩
    rw [List.find?_append, hfind]
    simp

theorem phase1_fold_resolves (a : TMArea) :
    ∀ (l : List TMArea) (s : MigState), s.g.oracle = [] → (l.map TMArea.uuid).Nodup →
      a ∈ l →
      ∃ lst, lookupCache (l.foldl phase1Step s).listsCache a.uuid = some lst ∧
        (l.foldl phase1Step s).g.lists.find? (fun y => y.title == a.title) = some lst := by
  intro l
  induction l with
  | nil => intro s _ _ hm; exact absurd hm (List.not_mem_nil a)
  | cons y ys ih =>
    intro s h hnd hm
    rw [List.map_cons] at hnd
    rcases List.mem_cons.mp hm with rfl | hmem
    · have hne : ∀ x ∈ ys, x.uuid ≠ a.uuid := by
        intro x hx heq2
        exact (List.nodup_cons.mp hnd).1 (heq2 ▸ List.mem_map_of_mem TMArea.uuid hx)
      exact phase1_fold_pres_resolve a ys _ (phase1Step_nil s a h).1 hne
        (phase1Step_estab_resolve s a h)
    · exact ih _ (phase1Step_nil s y h).1 (List.nodup_cons.mp hnd).2 hmem

theorem phase1_fold_noop :
    ∀ (l : List TMArea) (s : MigState), s.g.oracle = [] →
      (∀ a ∈ l, ∃ x, s.g.lists.find? (fun y => y.title == a.title) = some x) →
      (l.foldl phase1Step s).g = s.g := by
  intro l
  induction l with
  | nil => intro s _ _; rfl
  | cons y ys ih =>
    intro s h hall
    obtain ⟨x, hx⟩ := hall y (List.mem_cons_self y ys)
    rcases phase1Step_shape s y h with ⟨f, hfind, heq⟩ | ⟨hfind, heq⟩
    · rw [List.foldl_cons, heq]
      exact ih _ h (fun a ha => hall a (List.mem_cons_of_mem y ha))
    · rw [hfind] at hx
      exact absurd hx (by simp)

theorem phase1_count (db : ThingsDB) (s : MigState) (h : s.g.oracle = []) :
    ∀ T, countTitled (phase1 db s).g.lists T ≤ max (countTitled s.g.lists T) 1 := by
  unfold phase1
  have hres := foldl_pres (P := fun s' => s'.g.oracle = [] ∧
      ∀ T, countTitled s'.g.lists T ≤ max (countTitled s.g.lists T) 1)
    (fun s' x hx => by
      obtain ⟨hg, ho⟩ := phase1Step_guard s' x hx.1
      exact ⟨ho, countInv_guard hx.2 hg⟩)
    (ThingsReader.get_areas db) s ⟨h, fun T => le_max_left _ _⟩
  exact hres.2

/-- C3: Phase 1 looks a list up by exact title before creating, so running
Phase 1 twice against the destination state left by the first run creates at
most one list per distinct area title (and no list at all in the second
run), and the second run's cache resolves every area to the same list the
first run resolved it to. -/
theorem C3_idempotent_list_resolution (db : ThingsDB) (g0 : GState)
    (hor : g0.oracle = []) (hnd : (db.areas.map TMArea.uuid).Nodup) :
    (∀ T, countTitled (phase1 db (initMigState (phase1 db (initMigState g0)).g)).g.lists T ≤
      countTitled g0.lists T + 1) ∧
    (phase1 db (initMigState (phase1 db (initMigState g0)).g)).g.lists =
      (phase1 db (initMigState g0)).g.lists ∧
    ∀ a ∈ ThingsReader.get_areas db,
      lookupCache
          (phase1 db (initMigState (phase1 db (initMigState g0)).g)).listsCache a.uuid =
        lookupCache (phase1 db (initMigState g0)).listsCache a.uuid ∧
      (lookupCache (phase1 db (initMigState g0)).listsCache a.uuid).isSome := by
  have hnd' : ((ThingsReader.get_areas db).map TMArea.uuid).Nodup :=
    hnd.sublist (List.Sublist.map TMArea.uuid (List.filter_sublist db.areas))
  have ho1 : (phase1 db (initMigState g0)).g.oracle = [] := (phase1_nil db _ hor).1
  have hres1 : ∀ a ∈ ThingsReader.get_areas db, ∃ lst,
      lookupCache (phase1 db (initMigState g0)).listsCache a.uuid = some lst ∧
      (phase1 db (initMigState g0)).g.lists.find? (fun y => y.title == a.title) = some lst :=
    fun a ha => phase1_fold_resolves a (ThingsReader.get_areas db) (initMigState g0) hor hnd' ha
  have hnoop : (phase1 db (initMigState (phase1 db (initMigState g0)).g)).g =
      (phase1 db (initMigState g0)).g :=
    phase1_fold_noop (ThingsReader.get_areas db)
      (initMigState (phase1 db (initMigState g0)).g) ho1
      (fun a ha => (hres1 a ha).elim (fun lst hl => ⟨lst, hl.2⟩))
  have hls : (phase1 db (initMigState (phase1 db (initMigState g0)).g)).g.lists =
      (phase1 db (initMigState g0)).g.lists := congrArg GState.lists hnoop
  refine ⟨?_, hls, ?_⟩
  · intro T
    rw [hls]
    exact (phase1_count db (initMigState g0) hor T).trans
      (Nat.max_le.mpr ⟨Nat.le_succ _, Nat.succ_le_succ (Nat.zero_le _)⟩)
  · intro a ha
    obtain ⟨l1, hcc1, hff1⟩ := hres1 a ha
    have hres2 : ∃ lst,
        lookupCache
            (phase1 db (initMigState (phase1 db (initMigState g0)).g)).listsCache a.uuid =
          some lst ∧
        (phase1 db (initMigState (phase1 db (initMigState g0)).g)).g.lists.find?
          (fun y => y.title == a.title) = some lst :=
      phase1_fold_resolves a (ThingsReader.get_areas db)
        (initMigState (phase1 db (initMigState g0)).g) ho1 hnd' ha
    obtain ⟨l2, hcc2, hff2⟩ := hres2
    rw [hls] at hff2
    have hl21 : l2 = l1 := Option.some.inj (hff2.symm.trans hff1)
    subst hl21
    exact ⟨hcc2.trans hcc1.symm, by rw [hcc1]; rfl⟩

/-- Closed instance of C3: one source area, empty destination. -/
theorem C3_idempotent_list_resolution_witness :
    (∀ T, countTitled (phase1 ⟨[⟨"a1", "Work", false⟩], []⟩ (initMigState
      (phase1 ⟨[⟨"a1", "Work", false⟩], []⟩ (initMigState ⟨[], [], 0, [], 0⟩)).g)).g.lists T ≤
      countTitled ([] : List GTaskList) T + 1) ∧
    (phase1 ⟨[⟨"a1", "Work", false⟩], []⟩ (initMigState
      (phase1 ⟨[⟨"a1", "Work", false⟩], []⟩ (initMigState ⟨[], [], 0, [], 0⟩)).g)).g.lists =
      (phase1 ⟨[⟨"a1", "Work", false⟩], []⟩ (initMigState ⟨[], [], 0, [], 0⟩)).g.lists ∧
    ∀ a ∈ ThingsReader.get_areas ⟨[⟨"a1", "Work", false⟩], []⟩,
      lookupCache (phase1 ⟨[⟨"a1", "Work", false⟩], []⟩ (initMigState
          (phase1 ⟨[⟨"a1", "Work", false⟩], []⟩
            (initMigState ⟨[], [], 0, [], 0⟩)).g)).listsCache a.uuid =
        lookupCache (phase1 ⟨[⟨"a1", "Work", false⟩], []⟩
          (initMigState ⟨[], [], 0, [], 0⟩)).listsCache a.uuid ∧
      (lookupCache (phase1 ⟨[⟨"a1", "Work", false⟩], []⟩
        (initMigState ⟨[], [], 0, [], 0⟩)).listsCache a.uuid).isSome :=
  C3_idempotent_list_resolution ⟨[⟨"a1", "Work", false⟩], []⟩ ⟨[], [], 0, [], 0⟩ rfl
    (by decide)

/-! ## Hierarchy shape: claim C2 -/

theorem buildTaskBody_none_none (title : String) :
    buildTaskBody title none none = ((title, none, none), false) := rfl

theorem c2_inner (lid gpid : Nat) (u : String) (gh : GTask)
    (hghp : gh.parent = some gpid) (hght : gh.tasklist = lid) (t : TMTask) :
    ∀ (l : List TMTask), t ∈ l → ∀ s : MigState, s.g.oracle = [] → (u, gh) ∈ s.createdFor →
      ∃ gh' gt, (u, gh') ∈ (l.foldl (phase2TaskStep lid gh.id) s).createdFor ∧
        (t.uuid, gt) ∈ (l.foldl (phase2TaskStep lid gh.id) s).createdFor ∧
        gh'.parent = some gpid ∧ gh'.tasklist = lid ∧
        gt.parent = some gh'.id ∧ gt.tasklist = lid := by
  intro l
  induction l with
  | nil => intro htm; exact absurd htm (List.not_mem_nil t)
  | cons y ys ih =>
    intro htm s ho hmem
    rcases List.mem_cons.mp htm with rfl | hmemt
    · have hstep : phase2TaskStep lid gh.id s t =
          ⟨⟨s.g.lists, s.g.tasks ++ [⟨s.g.nextId, lid, t.title,
              (buildTaskBody t.title t.notes t.dueDate).1.2.1,
              (buildTaskBody t.title t.notes t.dueDate).1.2.2, some gh.id⟩],
            s.g.nextId + 1, s.g.oracle,
            s.g.warnings + (if (buildTaskBody t.title t.notes t.dueDate).2 then 1 else 0)⟩,
           s.listsCache, s.defaultCache, s.placed ++ [t.uuid],
           s.createdFor ++ [(t.uuid, ⟨s.g.nextId, lid, t.title,
              (buildTaskBody t.title t.notes t.dueDate).1.2.1,
              (buildTaskBody t.title t.notes t.dueDate).1.2.2, some gh.id⟩)]⟩ := by
        unfold phase2TaskStep
        rw [create_task_nil _ _ _ _ _ ho]
      rw [List.foldl_cons, hstep]
      refine ⟨gh, ⟨s.g.nextId, lid, t.title,
        (buildTaskBody t.title t.notes t.dueDate).1.2.1,
        (buildTaskBody t.title t.notes t.dueDate).1.2.2, some gh.id⟩,
        ?_, ?_, hghp, hght, rfl, rfl⟩
      · exact mem_createdFor_of_extend (by simp [hmem])
          (foldl_stepExtend (fun a b => phase2TaskStep_extend lid gh.id a b) ys _)
      · exact mem_createdFor_of_extend (by simp)
          (foldl_stepExtend (fun a b => phase2TaskStep_extend lid gh.id a b) ys _)
    · exact ih hmemt _ (phase2TaskStep_keys lid gh.id s y ho).1
        (mem_createdFor_of_extend hmem (phase2TaskStep_extend lid gh.id s y))

theorem c2_heading_head (db : ThingsDB) (lid gpid : Nat) (hd t : TMTask)
    (ht : t ∈ ThingsReader.get_tasks_for_heading db hd.uuid)
    (s : MigState) (ho : s.g.oracle = []) :
    ∃ gh gt, (hd.uuid, gh) ∈ (phase2HeadingStep db lid gpid s hd).createdFor ∧
      (t.uuid, gt) ∈ (phase2HeadingStep db lid gpid s hd).createdFor ∧
      gh.parent = some gpid ∧ gh.tasklist = lid ∧
      gt.parent = some gh.id ∧ gt.tasklist = lid := by
  unfold phase2HeadingStep
  rw [create_task_nil _ _ _ _ _ ho]
  dsimp only
  refine c2_inner lid gpid hd.uuid
    ⟨s.g.nextId, lid, "--- " ++ hd.title ++ " ---",
      (buildTaskBody ("--- " ++ hd.title ++ " ---") none none).1.2.1,
      (buildTaskBody ("--- " ++ hd.title ++ " ---") none none).1.2.2, some gpid⟩
    rfl rfl t (ThingsReader.get_tasks_for_heading db hd.uuid) ht _ ?_ ?_
  · simp [ho]
  · simp

theorem c2_headings (db : ThingsDB) (lid gpid : Nat) (hd t : TMTask)
    (ht : t ∈ ThingsReader.get_tasks_for_heading db hd.uuid) :
    ∀ (l : List TMTask), hd ∈ l → ∀ s : MigState, s.g.oracle = [] →
      ∃ gh gt, (hd.uuid, gh) ∈ (l.foldl (phase2HeadingStep db lid gpid) s).createdFor ∧
        (t.uuid, gt) ∈ (l.foldl (phase2HeadingStep db lid gpid) s).createdFor ∧
        gh.parent = some gpid ∧ gh.tasklist = lid ∧
        gt.parent = some gh.id ∧ gt.tasklist = lid := by
  intro l
  induction l with
  | nil => intro hm; exact absurd hm (List.not_mem_nil hd)
  | cons y ys ih =>
    intro hm s ho
    rcases List.mem_cons.mp hm with rfl | hmem
    · obtain ⟨gh, gt, m1, m2, c1, c2, c3, c4⟩ := c2_heading_head db lid gpid hd t ht s ho
      have hext := foldl_stepExtend (fun a b => phase2HeadingStep_extend db lid gpid a b) ys
        (phase2HeadingStep db lid gpid s hd)
      exact ⟨gh, gt, mem_createdFor_of_extend m1 hext, mem_createdFor_of_extend m2 hext,
        c1, c2, c3, c4⟩
    · exact ih hmem _ (phase2HeadingStep_keys db lid gpid s y ho).1

theorem c2_tail (db : ThingsDB) (lid : Nat) (pu puuid : String) (gp : GTask)
    (hgpp : gp.parent = none) (hgpt : gp.tasklist = lid) (hd t : TMTask)
    (hh : hd ∈ ThingsReader.get_headings_for_project db pu)
    (ht : t ∈ ThingsReader.get_tasks_for_heading db hd.uuid) :
    ∀ s : MigState, s.g.oracle = [] → (puuid, gp) ∈ s.createdFor →
      ∃ gp' gh gt,
        (puuid, gp') ∈ ((ThingsReader.get_tasks_for_project db pu).foldl
          (phase2TaskStep lid gp.id) ((ThingsReader.get_headings_for_project db pu).foldl
            (phase2HeadingStep db lid gp.id) s)).createdFor ∧
        (hd.uuid, gh) ∈ ((ThingsReader.get_tasks_for_project db pu).foldl
          (phase2TaskStep lid gp.id) ((ThingsReader.get_headings_for_project db pu).foldl
            (phase2HeadingStep db lid gp.id) s)).createdFor ∧
        (t.uuid, gt) ∈ ((ThingsReader.get_tasks_for_project db pu).foldl
          (phase2TaskStep lid gp.id) ((ThingsReader.get_headings_for_project db pu).foldl
            (phase2HeadingStep db lid gp.id) s)).createdFor ∧
        gp'.parent = none ∧ gh.parent = some gp'.id ∧ gt.parent = some gh.id ∧
        gh.tasklist = gp'.tasklist ∧ gt.tasklist = gp'.tasklist := by
  intro s ho hmem
  obtain ⟨gh, gt, m1, m2, c1, c2, c3, c4⟩ :=
    c2_headings db lid gp.id hd t ht (ThingsReader.get_headings_for_project db pu) hh s ho
  have hext := foldl_stepExtend (fun a b => phase2TaskStep_extend lid gp.id a b)
    (ThingsReader.get_tasks_for_project db pu)
    ((ThingsReader.get_headings_for_project db pu).foldl (phase2HeadingStep db lid gp.id) s)
  have hext0 := foldl_stepExtend (fun a b => phase2HeadingStep_extend db lid gp.id a b)
    (ThingsReader.get_headings_for_project db pu) s
  refine ⟨gp, gh, gt,
    mem_createdFor_of_extend (mem_createdFor_of_extend hmem hext0) hext,
    mem_createdFor_of_extend m1 hext, mem_createdFor_of_extend m2 hext,
    hgpp, c1, c3, c2.trans hgpt.symm, c4.trans hgpt.symm⟩

theorem c2_project (db : ThingsDB) (p hd t : TMTask)
    (hh : hd ∈ ThingsReader.get_headings_for_project db p.uuid)
    (ht : t ∈ ThingsReader.get_tasks_for_heading db hd.uuid)
    (s : MigState) (ho : s.g.oracle = []) :
    ∃ gp gh gt,
      (p.uuid, gp) ∈ (phase2Project db s p).createdFor ∧
      (hd.uuid, gh) ∈ (phase2Project db s p).createdFor ∧
      (t.uuid, gt) ∈ (phase2Project db s p).createdFor ∧
      gp.parent = none ∧ gh.parent = some gp.id ∧ gt.parent = some gh.id ∧
      gh.tasklist = gp.tasklist ∧ gt.tasklist = gp.tasklist := by
  obtain ⟨target, s1, heq, ho1, _, _, _, _⟩ := resolveTarget_nil p.area ho
  unfold phase2Project
  rw [heq]
  dsimp only
  rw [create_task_nil _ _ _ _ _ ho1]
  dsimp only
  refine c2_tail db target.id p.uuid p.uuid
    ⟨s1.g.nextId, target.id, p.title, (buildTaskBody p.title p.notes none).1.2.1,
      (buildTaskBody p.title p.notes none).1.2.2, none⟩
    rfl rfl hd t hh ht _ ?_ ?_
  · simp [ho1]
  · simp

/-- C2: for a project P with heading H and task T under H, the run creates a
remote task for T parented to H's placeholder, H's placeholder parented to
P's remote task, P's remote task top-level (no parent), and all three in the
same target list. -/
theorem C2_hierarchy_shape (db : ThingsDB) (g0 : GState) (p hd t : TMTask)
    (hor : g0.oracle = [])
    (hp : p ∈ ThingsReader.get_projects db)
    (hh : hd ∈ ThingsReader.get_headings_for_project db p.uuid)
    (ht : t ∈ ThingsReader.get_tasks_for_heading db hd.uuid) :
    ∃ gp gh gt,
      (p.uuid, gp) ∈ (runMigration db g0).createdFor ∧
      (hd.uuid, gh) ∈ (runMigration db g0).createdFor ∧
      (t.uuid, gt) ∈ (runMigration db g0).createdFor ∧
      gp.parent = none ∧ gh.parent = some gp.id ∧ gt.parent = some gh.id ∧
      gh.tasklist = gp.tasklist ∧ gt.tasklist = gp.tasklist := by
  have hQ2 := foldl_estab (P := fun s => s.g.oracle = [])
    (Q := fun s => ∃ gp gh gt, (p.uuid, gp) ∈ s.createdFor ∧
      (hd.uuid, gh) ∈ s.createdFor ∧ (t.uuid, gt) ∈ s.createdFor ∧
      gp.parent = none ∧ gh.parent = some gp.id ∧ gt.parent = some gh.id ∧
      gh.tasklist = gp.tasklist ∧ gt.tasklist = gp.tasklist)
    (fun s x hx => (phase2Project_keys db s x hx).1)
    (fun s x hx => by
      obtain ⟨gp, gh, gt, m1, m2, m3, r⟩ := hx
      exact ⟨gp, gh, gt, mem_createdFor_of_extend m1 (phase2Project_extend db s x),
        mem_createdFor_of_extend m2 (phase2Project_extend db s x),
        mem_createdFor_of_extend m3 (phase2Project_extend db s x), r⟩)
    (fun s hx => c2_project db p hd t hh ht s hx)
    (ThingsReader.get_projects db) (phase1 db (initMigState g0)) hp (phase1_nil db _ hor).1
  exact foldl_pres
    (P := fun s => ∃ gp gh gt, (p.uuid, gp) ∈ s.createdFor ∧
      (hd.uuid, gh) ∈ s.createdFor ∧ (t.uuid, gt) ∈ s.createdFor ∧
      gp.parent = none ∧ gh.parent = some gp.id ∧ gt.parent = some gh.id ∧
      gh.tasklist = gp.tasklist ∧ gt.tasklist = gp.tasklist)
    (fun s x hx => by
      obtain ⟨gp, gh, gt, m1, m2, m3, r⟩ := hx
      exact ⟨gp, gh, gt, mem_createdFor_of_extend m1 (phase3Step_fields s x).2,
        mem_createdFor_of_extend m2 (phase3Step_fields s x).2,
        mem_createdFor_of_extend m3 (phase3Step_fields s x).2, r⟩)
    (standalone_tasks_to_migrate db (phase2 db (phase1 db (initMigState g0))).placed)
    (phase2 db (phase1 db (initMigState g0))) hQ2

/-- Closed instance of C2: project `Launch`, heading `Prep`, task
`Write docs`. -/
theorem C2_hierarchy_shape_witness :
    ∃ gp gh gt,
      ("p1", gp) ∈ (runMigration
        ⟨[], [⟨"p1", 1, "Launch", none, none, none, none, none, none, false⟩,
          ⟨"h1", 2, "Prep", none, none, some "p1", none, none, none, false⟩,
          ⟨"t1", 0, "Write docs", none, none, some "p1", some "h1", none, none, false⟩]⟩
        ⟨[], [], 0, [], 0⟩).createdFor ∧
      ("h1", gh) ∈ (runMigration
        ⟨[], [⟨"p1", 1, "Launch", none, none, none, none, none, none, false⟩,
          ⟨"h1", 2, "Prep", none, none, some "p1", none, none, none, false⟩,
          ⟨"t1", 0, "Write docs", none, none, some "p1", some "h1", none, none, false⟩]⟩
        ⟨[], [], 0, [], 0⟩).createdFor ∧
      ("t1", gt) ∈ (runMigration
        ⟨[], [⟨"p1", 1, "Launch", none, none, none, none, none, none, false⟩,
          ⟨"h1", 2, "Prep", none, none, some "p1", none, none, none, false⟩,
          ⟨"t1", 0, "Write docs", none, none, some "p1", some "h1", none, none, false⟩]⟩
        ⟨[], [], 0, [], 0⟩).createdFor ∧
      gp.parent = none ∧ gh.parent = some gp.id ∧ gt.parent = some gh.id ∧
      gh.tasklist = gp.tasklist ∧ gt.tasklist = gp.tasklist :=
  C2_hierarchy_shape
    ⟨[], [⟨"p1", 1, "Launch", none, none, none, none, none, none, false⟩,
      ⟨"h1", 2, "Prep", none, none, some "p1", none, none, none, false⟩,
      ⟨"t1", 0, "Write docs", none, none, some "p1", some "h1", none, none, false⟩]⟩
    ⟨[], [], 0, [], 0⟩
    ⟨"p1", 1, "Launch", none, none, none, none, none, none, false⟩
    ⟨"h1", 2, "Prep", none, none, some "p1", none, none, none, false⟩
    ⟨"t1", 0, "Write docs", none, none, some "p1", some "h1", none, none, false⟩
    rfl (by decide) (by decide) (by decide)

/-! ## Counting machinery for claim C1 -/

theorem mem_get_projects {db : ThingsDB} {x : TMTask} :
    x ∈ ThingsReader.get_projects db ↔ x ∈ db.tasks ∧ x.type = 1 ∧ x.trashed = false := by
  simp [ThingsReader.get_projects, List.mem_filter, and_assoc]

theorem mem_get_tasks {db : ThingsDB} {x : TMTask} :
    x ∈ ThingsReader.get_tasks db ↔ x ∈ db.tasks ∧ x.type = 0 ∧ x.trashed = false := by
  simp [ThingsReader.get_tasks, List.mem_filter, and_assoc]

theorem mem_headings_for_project {db : ThingsDB} {pu : String} {x : TMTask} :
    x ∈ ThingsReader.get_headings_for_project db pu ↔
      x ∈ db.tasks ∧ x.type = 2 ∧ x.trashed = false ∧ x.project = some pu := by
  simp [ThingsReader.get_headings_for_project, List.mem_filter, and_assoc]

theorem mem_tasks_for_project {db : ThingsDB} {pu : String} {x : TMTask} :
    x ∈ ThingsReader.get_tasks_for_project db pu ↔
      x ∈ db.tasks ∧ x.type = 0 ∧ x.trashed = false ∧ x.project = some pu ∧
        x.heading = none := by
  simp [ThingsReader.get_tasks_for_project, List.mem_filter, and_assoc]

theorem mem_tasks_for_heading {db : ThingsDB} {hu : String} {x : TMTask} :
    x ∈ ThingsReader.get_tasks_for_heading db hu ↔
      x ∈ db.tasks ∧ x.type = 0 ∧ x.trashed = false ∧ x.heading = some hu := by
  simp [ThingsReader.get_tasks_for_heading, List.mem_filter, and_assoc]

theorem uuid_inj {db : ThingsDB} (hnd : (db.tasks.map TMTask.uuid).Nodup) {x y : TMTask}
    (hx : x ∈ db.tasks) (hy : y ∈ db.tasks) (h : x.uuid = y.uuid) : x = y :=
  List.inj_on_of_nodup_map hnd hx hy h

theorem count_map_uuid_zero {L : List TMTask} {u : String} (h : ∀ x ∈ L, x.uuid ≠ u) :
    (L.map TMTask.uuid).count u = 0 := by
  rw [List.count_eq_zero]
  intro hmem
  obtain ⟨x, hx, hxe⟩ := List.mem_map.mp hmem
  exact h x hx hxe

theorem count_map_uuid_one {db : ThingsDB} (hnd : (db.tasks.map TMTask.uuid).Nodup)
    {L : List TMTask} (hsub : L.Sublist db.tasks) {t : TMTask} (htm : t ∈ L) :
    (L.map TMTask.uuid).count t.uuid = 1 := by
  have hnd' : (L.map TMTask.uuid).Nodup := hnd.sublist (hsub.map TMTask.uuid)
  exact List.count_eq_one_of_mem hnd' (List.mem_map_of_mem TMTask.uuid htm)

theorem count_flatMap {α : Type} (f : α → List String) (u : String) :
    ∀ l : List α, (l.flatMap f).count u = (l.map (fun x => (f x).count u)).sum := by
  intro l
  induction l with
  | nil => simp
  | cons x xs ih => simp [List.flatMap_cons, List.count_append, ih]

theorem sum_count_single {α : Type} [DecidableEq α] (f : α → Nat) (x0 : α) :
    ∀ l : List α, l.count x0 = 1 → (∀ x ∈ l, x ≠ x0 → f x = 0) → f x0 = 1 →
      (l.map f).sum = 1 := by
  intro l
  induction l with
  | nil => intro h; simp at h
  | cons y ys ih =>
    intro hc hz hone
    by_cases hy : y = x0
    · subst hy
      rw [List.count_cons_self] at hc
      have h0 : ys.count y = 0 := by omega
      have hni : y ∉ ys := List.count_eq_zero.mp h0
      have hallz : ∀ z ∈ ys.map f, z = 0 := by
        intro z hz'
        obtain ⟨x, hx, rfl⟩ := List.mem_map.mp hz'
        exact hz x (List.mem_cons_of_mem _ hx) (fun he => hni (he ▸ hx))
      simp [List.sum_eq_zero hallz, hone]
    · have hcc : (y :: ys).count x0 = ys.count x0 := by
        rw [List.count_cons]
        simp [hy]
      rw [hcc] at hc
      have hrec := ih hc (fun x hx => hz x (List.mem_cons_of_mem _ hx)) hone
      simp [List.map_cons, hz y (List.mem_cons_self _ _) hy, hrec]

theorem sum_zero_of_zero {α : Type} (f : α → Nat) (l : List α)
    (h : ∀ x ∈ l, f x = 0) : (l.map f).sum = 0 := by
  refine List.sum_eq_zero ?_
  intro z hz
  obtain ⟨x, hx, rfl⟩ := List.mem_map.mp hz
  exact h x hx

theorem headingKeys_count_zero {db : ThingsDB} (hnd : (db.tasks.map TMTask.uuid).Nodup)
    {t : TMTask} (htm : t ∈ db.tasks) (h2 : TMTask) (hne : h2.uuid ≠ t.uuid)
    (hnh : t.heading ≠ some h2.uuid) : (headingKeys db h2).count t.uuid = 0 := by
  rw [headingKeys, List.count_cons]
  have hz : ((ThingsReader.get_tasks_for_heading db h2.uuid).map TMTask.uuid).count t.uuid
      = 0 := by
    refine count_map_uuid_zero ?_
    intro x hx heq
    obtain ⟨hxdb, _, _, hxh⟩ := mem_tasks_for_heading.mp hx
    have hxt : x = t := uuid_inj hnd hxdb htm heq
    exact hnh (hxt ▸ hxh)
  simp [hz, hne]

theorem headingKeys_count_one {db : ThingsDB} (hnd : (db.tasks.map TMTask.uuid).Nodup)
    {t : TMTask} (htm : t ∈ db.tasks) (htyp : t.type = 0) (htr : t.trashed = false)
    (h2 : TMTask) (hne : h2.uuid ≠ t.uuid) (hhd : t.heading = some h2.uuid) :
    (headingKeys db h2).count t.uuid = 1 := by
  rw [headingKeys, List.count_cons]
  have h1 : ((ThingsReader.get_tasks_for_heading db h2.uuid).map TMTask.uuid).count t.uuid
      = 1 := by
    refine count_map_uuid_one hnd (List.filter_sublist db.tasks) ?_
    exact mem_tasks_for_heading.mpr ⟨htm, htyp, htr, hhd⟩
  simp [h1, hne]

theorem uuid_ne_of_type {db : ThingsDB} (hnd : (db.tasks.map TMTask.uuid).Nodup)
    {x y : TMTask} (hx : x ∈ db.tasks) (hy : y ∈ db.tasks) (hne : x.type ≠ y.type) :
    x.uuid ≠ y.uuid :=
  fun h => hne (congrArg TMTask.type (uuid_inj hnd hx hy h))

theorem projectKeys_count_direct {db : ThingsDB} (hnd : (db.tasks.map TMTask.uuid).Nodup)
    {t p : TMTask} (htm : t ∈ db.tasks) (htyp : t.type = 0) (htr : t.trashed = false)
    (hpdb : p ∈ db.tasks) (hptyp : p.type = 1)
    (hproj : t.project = some p.uuid) (hhd : t.heading = none) :
    (projectKeys db p).count t.uuid = 1 := by
  have hpne : p.uuid ≠ t.uuid := uuid_ne_of_type hnd hpdb htm (by simp [hptyp, htyp])
  have hflat : ((ThingsReader.get_headings_for_project db p.uuid).flatMap
      (headingKeys db)).count t.uuid = 0 := by
    rw [count_flatMap]
    refine sum_zero_of_zero _ _ ?_
    intro h2 hh2
    obtain ⟨h2db, h2t, _, _⟩ := mem_headings_for_project.mp hh2
    refine headingKeys_count_zero hnd htm h2 ?_ ?_
    · exact uuid_ne_of_type hnd h2db htm (by simp [h2t, htyp])
    · rw [hhd]
      simp
  have hdir : ((ThingsReader.get_tasks_for_project db p.uuid).map TMTask.uuid).count t.uuid
      = 1 := by
    refine count_map_uuid_one hnd (List.filter_sublist db.tasks) ?_
    exact mem_tasks_for_project.mpr ⟨htm, htyp, htr, hproj, hhd⟩
  rw [projectKeys, List.count_cons, List.count_append, hflat, hdir]
  simp [hpne, Ne.symm hpne]

theorem projectKeys_count_zero_direct {db : ThingsDB}
    (hnd : (db.tasks.map TMTask.uuid).Nodup) {t p p2 : TMTask}
    (htm : t ∈ db.tasks) (htyp : t.type = 0)
    (hpdb : p ∈ db.tasks) (hproj : t.project = some p.uuid) (hhd : t.heading = none)
    (hp2db : p2 ∈ db.tasks) (hp2typ : p2.type = 1) (hne : p2 ≠ p) :
    (projectKeys db p2).count t.uuid = 0 := by
  have hp2ne : p2.uuid ≠ t.uuid := uuid_ne_of_type hnd hp2db htm (by simp [hp2typ, htyp])
  have hflat : ((ThingsReader.get_headings_for_project db p2.uuid).flatMap
      (headingKeys db)).count t.uuid = 0 := by
    rw [count_flatMap]
    refine sum_zero_of_zero _ _ ?_
    intro h2 hh2
    obtain ⟨h2db, h2t, _, _⟩ := mem_headings_for_project.mp hh2
    refine headingKeys_count_zero hnd htm h2 ?_ ?_
    · exact uuid_ne_of_type hnd h2db htm (by simp [h2t, htyp])
    · rw [hhd]
      simp
  have hdir : ((ThingsReader.get_tasks_for_project db p2.uuid).map TMTask.uuid).count t.uuid
      = 0 := by
    refine count_map_uuid_zero ?_
    intro x hx heq
    obtain ⟨hxdb, _, _, hxproj, _⟩ := mem_tasks_for_project.mp hx
    have hxt : x = t := uuid_inj hnd hxdb htm heq
    rw [hxt] at hxproj
    have hpp : p.uuid = p2.uuid := Option.some.inj (hproj.symm.trans hxproj)
    exact hne (uuid_inj hnd hp2db hpdb hpp.symm)
  rw [projectKeys, List.count_cons, List.count_append, hflat, hdir]
  simp [hp2ne, Ne.symm hp2ne]

theorem projectKeys_count_heading {db : ThingsDB} (hnd : (db.tasks.map TMTask.uuid).Nodup)
    {t hh2 p : TMTask} (htm : t ∈ db.tasks) (htyp : t.type = 0) (htr : t.trashed = false)
    (hhdb : hh2 ∈ db.tasks) (hh2typ : hh2.type = 2) (hh2tr : hh2.trashed = false)
    (hthd : t.heading = some hh2.uuid)
    (hpdb : p ∈ db.tasks) (hptyp : p.type = 1) (hhp : hh2.project = some p.uuid) :
    (projectKeys db p).count t.uuid = 1 := by
  have hpne : p.uuid ≠ t.uuid := uuid_ne_of_type hnd hpdb htm (by simp [hptyp, htyp])
  have hndt : db.tasks.Nodup := List.Nodup.of_map _ hnd
  have hdir : ((ThingsReader.get_tasks_for_project db p.uuid).map TMTask.uuid).count t.uuid
      = 0 := by
    refine count_map_uuid_zero ?_
    intro x hx heq
    obtain ⟨hxdb, _, _, _, hxhd⟩ := mem_tasks_for_project.mp hx
    have hxt : x = t := uuid_inj hnd hxdb htm heq
    rw [hxt, hthd] at hxhd
    exact Option.noConfusion hxhd
  have hflat : ((ThingsReader.get_headings_for_project db p.uuid).flatMap
      (headingKeys db)).count t.uuid = 1 := by
    rw [count_flatMap]
    refine sum_count_single _ hh2 _ ?_ ?_ ?_
    · exact List.count_eq_one_of_mem (hndt.filter _)
        (mem_headings_for_project.mpr ⟨hhdb, hh2typ, hh2tr, hhp⟩)
    · intro h2 hh2m hne2
      obtain ⟨h2db, h2t, _, _⟩ := mem_headings_for_project.mp hh2m
      refine headingKeys_count_zero hnd htm h2 ?_ ?_
      · exact uuid_ne_of_type hnd h2db htm (by simp [h2t, htyp])
      · rw [hthd]
        intro hsome
        exact hne2 (uuid_inj hnd h2db hhdb (Option.some.inj hsome).symm)
    · exact headingKeys_count_one hnd htm htyp htr hh2
        (uuid_ne_of_type hnd hhdb htm (by simp [hh2typ, htyp])) hthd
  rw [projectKeys, List.count_cons, List.count_append, hflat, hdir]
  simp [hpne, Ne.symm hpne]

theorem projectKeys_count_zero_heading {db : ThingsDB}
    (hnd : (db.tasks.map TMTask.uuid).Nodup) {t hh2 p p2 : TMTask}
    (htm : t ∈ db.tasks) (htyp : t.type = 0)
    (hhdb : hh2 ∈ db.tasks) (hthd : t.heading = some hh2.uuid)
    (hpdb : p ∈ db.tasks) (hhp : hh2.project = some p.uuid)
    (hp2db : p2 ∈ db.tasks) (hp2typ : p2.type = 1) (hne : p2 ≠ p) :
    (projectKeys db p2).count t.uuid = 0 := by
  have hp2ne : p2.uuid ≠ t.uuid := uuid_ne_of_type hnd hp2db htm (by simp [hp2typ, htyp])
  have hdir : ((ThingsReader.get_tasks_for_project db p2.uuid).map TMTask.uuid).count t.uuid
      = 0 := by
    refine count_map_uuid_zero ?_
    intro x hx heq
    obtain ⟨hxdb, _, _, _, hxhd⟩ := mem_tasks_for_project.mp hx
    have hxt : x = t := uuid_inj hnd hxdb htm heq
    rw [hxt, hthd] at hxhd
    exact Option.noConfusion hxhd
  have hflat : ((ThingsReader.get_headings_for_project db p2.uuid).flatMap
      (headingKeys db)).count t.uuid = 0 := by
    rw [count_flatMap]
    refine sum_zero_of_zero _ _ ?_
    intro h2 hh2m
    obtain ⟨h2db, h2t, _, h2p⟩ := mem_headings_for_project.mp hh2m
    refine headingKeys_count_zero hnd htm h2 ?_ ?_
    · exact uuid_ne_of_type hnd h2db htm (by simp [h2t, htyp])
    · rw [hthd]
      intro hsome
      have hh2eq : h2 = hh2 := uuid_inj hnd h2db hhdb (Option.some.inj hsome).symm
      rw [hh2eq] at h2p
      have hpp : p.uuid = p2.uuid := Option.some.inj (hhp.symm.trans h2p)
      exact hne (uuid_inj hnd hp2db hpdb hpp.symm)
  rw [projectKeys, List.count_cons, List.count_append, hflat, hdir]
  simp [hp2ne, Ne.symm hp2ne]

theorem phase2Keys_count_one {db : ThingsDB} (hnd : (db.tasks.map TMTask.uuid).Nodup)
    {t : TMTask} (hbt : belongsToProject db t) :
    (phase2Keys db).count t.uuid = 1 := by
  obtain ⟨htm, htyp, htr, hcase⟩ := hbt
  have hndt : db.tasks.Nodup := List.Nodup.of_map _ hnd
  rw [phase2Keys, count_flatMap]
  rcases hcase with ⟨p, hpdb, hptyp, hptr, hproj, hhd⟩ |
    ⟨hh2, hhdb, hh2typ, hh2tr, hthd, p, hpdb, hptyp, hptr, hhp⟩
  · refine sum_count_single _ p _ ?_ ?_ ?_
    · exact List.count_eq_one_of_mem (hndt.filter _)
        (mem_get_projects.mpr ⟨hpdb, hptyp, hptr⟩)
    · intro p2 hp2 hne2
      obtain ⟨hp2db, hp2typ, _⟩ := mem_get_projects.mp hp2
      exact projectKeys_count_zero_direct hnd htm htyp hpdb hproj hhd hp2db hp2typ hne2
    · exact projectKeys_count_direct hnd htm htyp htr hpdb hptyp hproj hhd
  · refine sum_count_single _ p _ ?_ ?_ ?_
    · exact List.count_eq_one_of_mem (hndt.filter _)
        (mem_get_projects.mpr ⟨hpdb, hptyp, hptr⟩)
    · intro p2 hp2 hne2
      obtain ⟨hp2db, hp2typ, _⟩ := mem_get_projects.mp hp2
      exact projectKeys_count_zero_heading hnd htm htyp hhdb hthd hpdb hhp hp2db hp2typ hne2
    · exact projectKeys_count_heading hnd htm htyp htr hhdb hh2typ hh2tr hthd hpdb hptyp hhp

/-- C1: a task belonging to a project (directly or via a heading) is in the
placed set after Phase 2, is excluded by the Phase 3 standalone sweep, and
exactly one remote task is created for it over the whole run. -/
theorem C1_no_double_placement (db : ThingsDB) (g0 : GState) (t : TMTask)
    (hor : g0.oracle = []) (hnd : (db.tasks.map TMTask.uuid).Nodup)
    (hbt : belongsToProject db t) :
    t.uuid ∈ (phase2 db (phase1 db (initMigState g0))).placed ∧
    t ∉ standalone_tasks_to_migrate db (phase2 db (phase1 db (initMigState g0))).placed ∧
    countKey (runMigration db g0).createdFor t.uuid = 1 := by
  obtain ⟨ho1, hp1, hc1⟩ := phase1_nil db (initMigState g0) hor
  obtain ⟨ho2, hp2, hc2⟩ := phase2_keys db (phase1 db (initMigState g0)) ho1
  have hplaced : (phase2 db (phase1 db (initMigState g0))).placed = phase2Keys db := by
    rw [hp2, hp1]
    rfl
  have hcnt := phase2Keys_count_one hnd hbt
  have hmemk : t.uuid ∈ phase2Keys db := by
    have hpos : 0 < (phase2Keys db).count t.uuid := by
      rw [hcnt]
      exact Nat.one_pos
    exact List.count_pos_iff.mp hpos
  have hmemp : t.uuid ∈ (phase2 db (phase1 db (initMigState g0))).placed := by
    rw [hplaced]
    exact hmemk
  have hexcl : t ∉ standalone_tasks_to_migrate db
      (phase2 db (phase1 db (initMigState g0))).placed := by
    intro hmem3
    have hf := (List.mem_filter.mp hmem3).2
    simp [standaloneFilter] at hf
    exact hf.1 hmemp
  refine ⟨hmemp, hexcl, ?_⟩
  obtain ⟨ho3, hp3, hc3⟩ := phase3_keys db (phase2 db (phase1 db (initMigState g0))) ho2
  have hzero : ((standalone_tasks_to_migrate db
      (phase2 db (phase1 db (initMigState g0))).placed).map TMTask.uuid).count t.uuid
      = 0 := by
    refine count_map_uuid_zero ?_
    intro x hx heq
    have hxdb : x ∈ db.tasks := (mem_get_tasks.mp (List.mem_of_mem_filter hx)).1
    have hxt : x = t := uuid_inj hnd hxdb hbt.1 heq
    exact hexcl (hxt ▸ hx)
  show ((phase3 db (phase2 db (phase1 db (initMigState g0)))).createdFor.map
    Prod.fst).count t.uuid = 1
  rw [hc3, hc2, hc1, List.count_append, List.count_append, hzero, hcnt]
  simp [initMigState]

/-- Closed instance of C1: the task under the heading of a project, with a
distracting standalone task alongside. -/
theorem C1_no_double_placement_witness :
    "t1" ∈ (phase2
      ⟨[], [⟨"p1", 1, "Launch", none, none, none, none, none, none, false⟩,
        ⟨"h1", 2, "Prep", none, none, some "p1", none, none, none, false⟩,
        ⟨"t1", 0, "Write docs", none, none, some "p1", some "h1", none, none, false⟩,
        ⟨"t2", 0, "Buy milk", none, none, none, none, none, none, false⟩]⟩
      (phase1
        ⟨[], [⟨"p1", 1, "Launch", none, none, none, none, none, none, false⟩,
          ⟨"h1", 2, "Prep", none, none, some "p1", none, none, none, false⟩,
          ⟨"t1", 0, "Write docs", none, none, some "p1", some "h1", none, none, false⟩,
          ⟨"t2", 0, "Buy milk", none, none, none, none, none, none, false⟩]⟩
        (initMigState ⟨[], [], 0, [], 0⟩))).placed ∧
    (⟨"t1", 0, "Write docs", none, none, some "p1", some "h1", none, none, false⟩ : TMTask) ∉
      standalone_tasks_to_migrate
      ⟨[], [⟨"p1", 1, "Launch", none, none, none, none, none, none, false⟩,
        ⟨"h1", 2, "Prep", none, none, some "p1", none, none, none, false⟩,
        ⟨"t1", 0, "Write docs", none, none, some "p1", some "h1", none, none, false⟩,
        ⟨"t2", 0, "Buy milk", none, none, none, none, none, none, false⟩]⟩
      (phase2
        ⟨[], [⟨"p1", 1, "Launch", none, none, none, none, none, none, false⟩,
          ⟨"h1", 2, "Prep", none, none, some "p1", none, none, none, false⟩,
          ⟨"t1", 0, "Write docs", none, none, some "p1", some "h1", none, none, false⟩,
          ⟨"t2", 0, "Buy milk", none, none, none, none, none, none, false⟩]⟩
        (phase1
          ⟨[], [⟨"p1", 1, "Launch", none, none, none, none, none, none, false⟩,
            ⟨"h1", 2, "Prep", none, none, some "p1", none, none, none, false⟩,
            ⟨"t1", 0, "Write docs", none, none, some "p1", some "h1", none, none, false⟩,
            ⟨"t2", 0, "Buy milk", none, none, none, none, none, none, false⟩]⟩
          (initMigState ⟨[], [], 0, [], 0⟩))).placed ∧
    countKey (runMigration
      ⟨[], [⟨"p1", 1, "Launch", none, none, none, none, none, none, false⟩,
        ⟨"h1", 2, "Prep", none, none, some "p1", none, none, none, false⟩,
        ⟨"t1", 0, "Write docs", none, none, some "p1", some "h1", none, none, false⟩,
        ⟨"t2", 0, "Buy milk", none, none, none, none, none, none, false⟩]⟩
      ⟨[], [], 0, [], 0⟩).createdFor "t1" = 1 :=
  C1_no_double_placement
    ⟨[], [⟨"p1", 1, "Launch", none, none, none, none, none, none, false⟩,
      ⟨"h1", 2, "Prep", none, none, some "p1", none, none, none, false⟩,
      ⟨"t1", 0, "Write docs", none, none, some "p1", some "h1", none, none, false⟩,
      ⟨"t2", 0, "Buy milk", none, none, none, none, none, none, false⟩]⟩
    ⟨[], [], 0, [], 0⟩
    ⟨"t1", 0, "Write docs", none, none, some "p1", some "h1", none, none, false⟩
    rfl (by decide) (by unfold belongsToProject; decide)
